import Mathlib

/-!
# Chattify chat server (`server/index.js`)

A shallow embedding of the socket.io event handlers, the multer storage
configuration and the `POST /upload` route of `server/index.js`, followed by
theorems about history replay, the online roster, message fan-out, the upload
classification, the transcode fallback and the filename sanitiser.

Conventions of the embedding:

* JavaScript strings are Lean strings (sequences of Unicode scalar values);
  where the source works on UTF-16 code units (the sanitising regular
  expression) the embedding accounts for the two code units of a character
  outside the Basic Multilingual Plane.
* `socket.id` is a unique identifier; it is a natural number here.
* Every reading of the clock (`Date.now()`, `new Date().toLocaleTimeString()`)
  and the outcome of the external transcoder are inputs of the handlers.
* Of the libraries the source requires, the embedding describes what the
  source relies on: the two properties of the `fluent-ffmpeg` module read by
  the route, busboy's `basename` and multer's handling of a file part, and
  Node's `path.extname` / `path.basename`.
* An emission is recorded as one `Emit` per receiving socket.
-/

namespace Chattify

/-! ## Data model -/

/-- Identifier of a socket.io connection (`socket.id`). -/
abbrev SocketId := Nat

/-- The `messageData` objects pushed to `chatHistory` and sent as `chat` events.
`sender` is optional because `socket.username` is `undefined` before `join`;
the four media fields are absent on text messages. -/
structure Message where
  sender : Option String
  message : String
  timestamp : String
  type : String
  file : Option String := none
  fileType : Option String := none
  fileName : Option String := none
  fileSize : Option Nat := none
deriving DecidableEq, Repr

/-- A connected socket together with its `socket.username` property. -/
structure Socket where
  id : SocketId
  username : Option String
deriving DecidableEq, Repr

/-- Payload of the client's `file-upload` event. -/
structure FileData where
  fileName : String
  fileType : String
  fileSize : Nat
  fileContent : String
  type : String
deriving DecidableEq, Repr

/-- The four events the server sends to clients, with their payloads. -/
inductive ServerEvent where
  | onlineUsers (names : List String)
  | chat (msg : Message)
  | chatHistory (history : List Message)
  | typing (username : String)
deriving DecidableEq, Repr

/-- One event delivered to one socket. -/
structure Emit where
  target : SocketId
  event : ServerEvent
deriving DecidableEq, Repr

/-- Module-level state of the server: the sockets of the default namespace in
connection order, the `onlineUsers` map in insertion order, `chatHistory`, and
the names of the files present in the two blob directories. -/
structure ServerState where
  sockets : List Socket
  onlineUsers : List (SocketId × String)
  chatHistory : List Message
  uploadsDir : List String
  compressedVideosDir : List String
deriving DecidableEq, Repr

/-- State right after start-up: nobody connected, empty map, `chatHistory = []`. -/
def init : ServerState :=
  { sockets := [], onlineUsers := [], chatHistory := [], uploadsDir := [],
    compressedVideosDir := [] }

/-! ## The `onlineUsers` map (a JavaScript `Map`, which iterates in insertion order) -/

/-- `Map.prototype.set`: an existing key keeps its position and gets the new
value, a new key is added at the end. -/
def mapSet : List (SocketId × String) → SocketId → String → List (SocketId × String)
  | [], k, v => [(k, v)]
  | (k0, v0) :: m, k, v => if k0 = k then (k, v) :: m else (k0, v0) :: mapSet m k v

/-- `Map.prototype.delete`. -/
def mapDelete (m : List (SocketId × String)) (k : SocketId) : List (SocketId × String) :=
  m.filter (fun e => decide (e.1 ≠ k))

/-- `Array.from(map.values())`. -/
def mapValues (m : List (SocketId × String)) : List String :=
  m.map Prod.snd

/-- Keys of the map, in iteration order. -/
def mapKeys (m : List (SocketId × String)) : List SocketId :=
  m.map Prod.fst

/-- The roster, `Array.from(onlineUsers.values())`. -/
def roster (s : ServerState) : List String :=
  mapValues s.onlineUsers

/-! ## Sockets and the three ways of emitting -/

/-- Ids of the connected sockets. -/
def connectedIds (s : ServerState) : List SocketId :=
  s.sockets.map Socket.id

/-- The `socket.username` property of the socket with the given id
(`none` when it was never assigned). -/
def usernameOf (s : ServerState) (id : SocketId) : Option String :=
  (s.sockets.find? (fun k => decide (k.id = id))).bind Socket.username

/-- Assignment `socket.username = username` on the socket with the given id. -/
def setUsername (sockets : List Socket) (id : SocketId) (username : String) : List Socket :=
  sockets.map (fun k => if k.id = id then { k with username := some username } else k)

/-- `io.emit(...)`: every connected socket receives the event. -/
def ioEmit (s : ServerState) (ev : ServerEvent) : List Emit :=
  s.sockets.map (fun k => { target := k.id, event := ev })

/-- `socket.broadcast.emit(...)`: every connected socket except the emitting one. -/
def broadcastEmit (s : ServerState) (id : SocketId) (ev : ServerEvent) : List Emit :=
  (s.sockets.filter (fun k => decide (k.id ≠ id))).map (fun k => { target := k.id, event := ev })

/-- `socket.emit(...)`: the socket itself only. -/
def socketEmit (id : SocketId) (ev : ServerEvent) : List Emit :=
  [{ target := id, event := ev }]

/-- JavaScript truthiness of `socket.username` / `req.body.username`:
`undefined` and the empty string are falsy. -/
def truthy : Option String → Bool
  | none => false
  | some n => decide (n ≠ "")

/-- The object literal used for the announcements of joins and leaves. -/
def systemMessage (text time : String) : Message :=
  { sender := some "System", message := text, timestamp := time, type := "text" }

/-! ## Socket event handlers -/

/-- Handler `socket.on('join', ...)`. -/
def onJoin (s : ServerState) (id : SocketId) (username time : String) :
    ServerState × List Emit :=
  let s1 : ServerState :=
    { s with sockets := setUsername s.sockets id username,
             onlineUsers := mapSet s.onlineUsers id username }
  (s1,
    ioEmit s1 (.onlineUsers (roster s1))
      ++ broadcastEmit s1 id (.chat (systemMessage (username ++ " has joined the chat.") time))
      ++ socketEmit id (.chatHistory s1.chatHistory))

/-- Handler `socket.on('typing', ...)`. -/
def onTyping (s : ServerState) (id : SocketId) (username : String) :
    ServerState × List Emit :=
  (s, broadcastEmit s id (.typing username))

/-- The `messageData` built by the `chat` handler. -/
def chatMessage (s : ServerState) (id : SocketId) (msg time : String) : Message :=
  { sender := usernameOf s id, message := msg, timestamp := time, type := "text" }

/-- Handler `socket.on('chat', ...)`. -/
def onChat (s : ServerState) (id : SocketId) (msg time : String) :
    ServerState × List Emit :=
  let messageData := chatMessage s id msg time
  ({ s with chatHistory := s.chatHistory ++ [messageData] }, ioEmit s (.chat messageData))

/-- The `messageData` built by the `file-upload` handler. -/
def fileUploadMessage (s : ServerState) (id : SocketId) (fileData : FileData)
    (time : String) : Message :=
  { sender := usernameOf s id,
    message := fileData.fileName,
    timestamp := time,
    type := fileData.type,
    file := some fileData.fileContent,
    fileType := some fileData.fileType,
    fileName := some fileData.fileName,
    fileSize := some fileData.fileSize }

/-- Handler `socket.on('file-upload', ...)`. -/
def onFileUpload (s : ServerState) (id : SocketId) (fileData : FileData) (time : String) :
    ServerState × List Emit :=
  let messageData := fileUploadMessage s id fileData time
  ({ s with chatHistory := s.chatHistory ++ [messageData] }, ioEmit s (.chat messageData))

/-- Handler `socket.on('disconnect', ...)`. When it runs, socket.io has already
removed the socket from the namespace, so `io.emit` reaches the remaining
sockets only; the closed socket object still carries its `username`. -/
def onDisconnect (s : ServerState) (id : SocketId) (time : String) :
    ServerState × List Emit :=
  let username := usernameOf s id
  let s1 : ServerState :=
    { s with sockets := s.sockets.filter (fun k => decide (k.id ≠ id)),
             onlineUsers := mapDelete s.onlineUsers id }
  (s1,
    ioEmit s1 (.onlineUsers (roster s1))
      ++ (if truthy username then
            ioEmit s1 (.chat (systemMessage (username.getD "" ++ " has left the chat.") time))
          else []))

/-! ## Multer storage: the on-disk filename -/

/-- Membership in the character class `[a-zA-Z0-9.\-_]` of the sanitising
regular expression. -/
def allowedChar (c : Char) : Bool :=
  (decide ('a'.toNat ≤ c.toNat) && decide (c.toNat ≤ 'z'.toNat))
    || (decide ('A'.toNat ≤ c.toNat) && decide (c.toNat ≤ 'Z'.toNat))
    || (decide ('0'.toNat ≤ c.toNat) && decide (c.toNat ≤ '9'.toNat))
    || c == '.' || c == '-' || c == '_'

/-- Number of UTF-16 code units of a character: the regular expression has no
`u` flag, so it visits a JavaScript string one code unit at a time. -/
def utf16Units (c : Char) : Nat :=
  if c.toNat < 65536 then 1 else 2

/-- What `replace(/[^a-zA-Z0-9.\-_]/g, '_')` makes of one character: an allowed
character stays, any other is replaced by one `_` per code unit. -/
def sanitizeChar (c : Char) : List Char :=
  if allowedChar c then [c] else List.replicate (utf16Units c) '_'

/-- The value `safeFilename` of the storage configuration:
`file.originalname.replace(/[^a-zA-Z0-9.\-_]/g, '_')`. -/
def safeFilename (originalname : String) : String :=
  String.mk (originalname.data.flatMap sanitizeChar)

/-- The `filename` callback of `multer.diskStorage`, with `now = Date.now()`:
the template string `${Date.now()}-${safeFilename}`. The callback is always
given a name and never an error. -/
def storageFilename (originalname : String) (now : Nat) : String :=
  Nat.repr now ++ "-" ++ safeFilename originalname

/-! ## `POST /upload` -/

/-- The fields of `req.file` that the route reads. -/
structure UploadedFile where
  originalname : String
  mimetype : String
  size : Nat
  filename : String
deriving DecidableEq, Repr

/-- What the route reads of the module object `ffmpeg = require('fluent-ffmpeg')`
in the first statement of its `try` block: the truthiness of the property
`ffmpeg.get`, and `ffmpeg.getFfprobePath`, which is `none` when the property is
not a function (calling it throws a `TypeError`) and otherwise the truthiness of
what the call returns. -/
structure FfmpegModule where
  get : Bool
  getFfprobePath : Option Bool
deriving DecidableEq, Repr

/-- The module `fluent-ffmpeg` as published: its static members (the path
setters `setFfmpegPath`, `setFfprobePath` and `setFlvtoolPath`, the capability
queries and `ffprobe`) include neither `get` nor `getFfprobePath`. -/
def fluentFfmpeg : FfmpegModule :=
  { get := false, getFfprobePath := none }

/-- The condition `ffmpeg.get || !ffmpeg.getFfprobePath()`: `none` when its
evaluation throws, otherwise its value (the statement it guards only warns).
`||` does not evaluate its right side when the left side is truthy. -/
def probe (ffmpeg : FfmpegModule) : Option Bool :=
  if ffmpeg.get then some true
  else
    match ffmpeg.getFfprobePath with
    | none => none
    | some configured => some (!configured)

/-- How the rest of the `try` block runs once the first statement has not
thrown. The transcoder and `fs.statSync` are external; each may fail. -/
inductive TranscodeRun where
  /-- the transcoder raised its `error` event (tool error, missing binary) and
  the promise was rejected -/
  | ffmpegError
  /-- the transcoder raised `end` (its handler unlinks the original), then
  `fs.statSync(compressedFilePath)` threw -/
  | endThenStatThrew
  /-- the transcoder raised `end`, and `fs.statSync` returned this size -/
  | endThenStat (size : Nat)
deriving DecidableEq, Repr

/-- Environment of one run of the route. -/
structure UploadEnv where
  /-- `Date.now()` used in the name of the compressed file -/
  now : Nat
  /-- `new Date().toLocaleTimeString()` -/
  time : String
  /-- how the transcoder and `fs.statSync` behave when they are reached -/
  transcode : TranscodeRun
deriving DecidableEq, Repr

/-- The HTTP response: status, the text (400) or the `message` of the JSON
body (200), and the `fileUrl` of the JSON body. -/
structure Response where
  status : Nat
  message : String
  fileUrl : Option String
deriving DecidableEq, Repr

/-- `String.prototype.startsWith`. -/
def startsWith (s p : String) : Bool :=
  p.data.isPrefixOf s.data

/-- `String.prototype.toLowerCase` on the ASCII names the storage produces. -/
def toLowerCase (s : String) : String :=
  String.mk (s.data.map Char.toLower)

/-- Node's `path.extname` on a name without path separator: the part from the
last `.` on; empty when there is no `.`, when the last `.` is the first
character, and for the name `..`. -/
def extname (name : String) : String :=
  let cs := name.data
  let tail := cs.reverse.takeWhile (fun c => c != '.')
  if tail.length = cs.length then ""
  else
    let dot := cs.length - tail.length - 1
    if dot = 0 || cs == ['.', '.'] then "" else String.mk (cs.drop dot)

/-- Node's `path.basename(name, ext)` on a name without path separator: the
name without the suffix `ext` when it ends with it (compared case-sensitively),
the name itself otherwise. -/
def basename (name ext : String) : String :=
  if ext.data ≠ [] ∧ ext.data.isSuffixOf name.data then
    String.mk (name.data.take (name.data.length - ext.data.length))
  else name

/-- The expression computing `messageType`. -/
def messageType (mimetype : String) : String :=
  if startsWith mimetype "image/" then "image"
  else if startsWith mimetype "video/" then "video"
  else "file"

/-- `fs.unlink` on a file of the uploads directory. -/
def unlink (dir : List String) (name : String) : List String :=
  dir.filter (fun f => decide (f ≠ name))

/-- Values of the route's local variables after the `if (messageType === 'video')`
statement, with the two blob directories. -/
structure Processed where
  finalFileUrl : String
  finalFileSize : Nat
  finalFileType : String
  uploadsDir : List String
  compressedVideosDir : List String
deriving DecidableEq, Repr

/-- The `try { ... } catch (error) { ... }` statement of the video branch, for a
given `ffmpeg` module. The `catch` block sets `finalFileUrl` to the original
under `/uploads/` and `finalFileType` to `req.file.mimetype`; `finalFileSize`
still has its initial value `req.file.size`. It is entered when the first
statement throws, when the transcoder reports `error`, and when `fs.statSync`
throws, which can only happen after the handler of `end` has unlinked the
original. -/
def processVideo (ffmpeg : FfmpegModule) (s : ServerState) (f : UploadedFile)
    (env : UploadEnv) (fileNameWithoutExt : String) : Processed :=
  let compressedFileName := fileNameWithoutExt ++ "_compressed_" ++ Nat.repr env.now ++ ".mp4"
  match probe ffmpeg with
  | none =>
      { finalFileUrl := "/uploads/" ++ f.filename, finalFileSize := f.size,
        finalFileType := f.mimetype, uploadsDir := s.uploadsDir,
        compressedVideosDir := s.compressedVideosDir }
  | some _ =>
    match env.transcode with
    | .ffmpegError =>
        { finalFileUrl := "/uploads/" ++ f.filename, finalFileSize := f.size,
          finalFileType := f.mimetype, uploadsDir := s.uploadsDir,
          compressedVideosDir := s.compressedVideosDir }
    | .endThenStatThrew =>
        { finalFileUrl := "/uploads/" ++ f.filename, finalFileSize := f.size,
          finalFileType := f.mimetype, uploadsDir := unlink s.uploadsDir f.filename,
          compressedVideosDir := s.compressedVideosDir }
    | .endThenStat size =>
        { finalFileUrl := "/compressed_videos/" ++ compressedFileName, finalFileSize := size,
          finalFileType := "video/mp4", uploadsDir := unlink s.uploadsDir f.filename,
          compressedVideosDir := s.compressedVideosDir ++ [compressedFileName] }

/-- The statement `if (messageType === 'video') { try ... catch ... } else ...`
of the route, whose `ffmpeg` is the module `fluent-ffmpeg`. `finalFileSize` and
`finalFileType` start as `req.file.size` and `req.file.mimetype`. -/
def processFile (s : ServerState) (f : UploadedFile) (env : UploadEnv) : Processed :=
  let fileExtension := toLowerCase (extname f.filename)
  let fileNameWithoutExt := basename f.filename fileExtension
  if messageType f.mimetype = "video" then
    processVideo fluentFfmpeg s f env fileNameWithoutExt
  else
    { finalFileUrl := "/uploads/" ++ f.filename, finalFileSize := f.size,
      finalFileType := f.mimetype, uploadsDir := s.uploadsDir,
      compressedVideosDir := s.compressedVideosDir }

/-- The `messageData` built by the route; `req.body.username || 'Unknown'`. -/
def uploadMessage (f : UploadedFile) (username : Option String) (time : String)
    (p : Processed) : Message :=
  { sender := some (if truthy username then username.getD "" else "Unknown"),
    message := f.originalname,
    timestamp := time,
    type := messageType f.mimetype,
    file := some p.finalFileUrl,
    fileType := some p.finalFileType,
    fileName := some f.originalname,
    fileSize := some p.finalFileSize }

/-- The route `app.post('/upload', upload.single('chatFile'), ...)`, given
`req.file` and `req.body.username`. -/
def postUpload (s : ServerState) (file : Option UploadedFile) (username : Option String)
    (env : UploadEnv) : ServerState × List Emit × Response :=
  match file with
  | none => (s, [], { status := 400, message := "No file uploaded.", fileUrl := none })
  | some f =>
    let p := processFile s f env
    let messageData := uploadMessage f username env.time p
    ({ s with chatHistory := s.chatHistory ++ [messageData],
              uploadsDir := p.uploadsDir,
              compressedVideosDir := p.compressedVideosDir },
      ioEmit s (.chat messageData),
      { status := 200, message := "File uploaded and processed successfully",
        fileUrl := some p.finalFileUrl })

/-! ## The server as a transition system -/

/-- The `file` object multer hands to the storage engine for the part
`chatFile`: `originalname` and `mimetype` are the name and the type as busboy
reports them for the part (see `multerFile`), not the raw text the client wrote;
`size` is the number of bytes the storage engine then writes. -/
structure IncomingFile where
  originalname : String
  mimetype : String
  size : Nat
deriving DecidableEq, Repr

/-- What can happen to the server. Socket events carry the id of the socket
they arrive on; events that read the clock carry the reading. An `upload` is a
`POST /upload` request that multer has parsed and that has run to its response:
`file` is the file multer hands to the storage engine (`none` when it attaches
no file), `stamp` is the `Date.now()` of the storage callback. -/
inductive Event where
  | connection (id : SocketId)
  | join (id : SocketId) (username time : String)
  | typing (id : SocketId) (username : String)
  | chat (id : SocketId) (msg time : String)
  | fileUpload (id : SocketId) (fileData : FileData) (time : String)
  | disconnect (id : SocketId) (time : String)
  | upload (file : Option IncomingFile) (username : Option String) (stamp : Nat)
      (env : UploadEnv)
deriving DecidableEq, Repr

/-- `io.on('connection', ...)`: a new socket, without `username`, enters the
namespace and gets its handlers. -/
def onConnection (s : ServerState) (id : SocketId) : ServerState :=
  { s with sockets := s.sockets ++ [{ id := id, username := none }] }

/-- The storage stage of multer's `upload.single('chatFile')`: the file multer
has accepted, when there is one, is written to the uploads directory under the
name the storage callback chose, and described in `req.file`; without a file
`req.file` stays undefined. -/
def multerSingle (s : ServerState) (file : Option IncomingFile) (stamp : Nat) :
    ServerState × Option UploadedFile :=
  match file with
  | none => (s, none)
  | some f =>
    let filename := storageFilename f.originalname stamp
    ({ s with uploadsDir := if filename ∈ s.uploadsDir then s.uploadsDir
                            else s.uploadsDir ++ [filename] },
      some { originalname := f.originalname, mimetype := f.mimetype, size := f.size,
             filename := filename })

/-- A parsed `POST /upload` request up to its response: the storage stage of
multer, then the route. -/
def handleUpload (s : ServerState) (file : Option IncomingFile) (username : Option String)
    (stamp : Nat) (env : UploadEnv) : ServerState × List Emit × Response :=
  postUpload (multerSingle s file stamp).1 (multerSingle s file stamp).2 username env

/-- The function `basename` of busboy, which it applies to the `filename`
parameter of a part (multer does not set `preservePath`): what follows the last
`/` or backslash, and the empty name when that is `.` or `..`. -/
def busboyBasename (filename : String) : String :=
  let base := String.mk
    (filename.data.reverse.takeWhile (fun c => c != '/' && c != '\\')).reverse
  if base = "." ∨ base = ".." then "" else base

/-- The file part as busboy finds it in the request body: the `filename`
parameter of its `Content-Disposition` header as busboy decoded it, the type
busboy reports for it, and the number of bytes of its body. Decoding is
busboy's work on the wire format and is not described here; for a name of
printable ASCII characters without quotes and backslashes the parameter is the
name the client wrote. -/
structure FilePart where
  filename : String
  mimeType : String
  size : Nat
deriving DecidableEq, Repr

/-- Multer's listener for busboy's `file` event: the part is announced with the
base name of its `filename` parameter; `if (!filename) return fileStream.resume()`
skips a part whose base name is empty; otherwise the storage engine is given
`originalname: filename` and `mimetype: mimeType`. -/
def multerFile (part : FilePart) : Option IncomingFile :=
  let filename := busboyBasename part.filename
  if filename = "" then none
  else some { originalname := filename, mimetype := part.mimeType, size := part.size }

/-- A `POST /upload` request whose body holds the file part `part`, up to its
response. -/
def receivePart (s : ServerState) (part : FilePart) (username : Option String)
    (stamp : Nat) (env : UploadEnv) : ServerState × List Emit × Response :=
  handleUpload s (multerFile part) username stamp env

/-- One event. Socket handlers exist only on connected sockets, and socket ids
are unique, so a socket event for an id that is not connected and a
`connection` for an id that is connected do nothing. -/
def step (s : ServerState) : Event → ServerState × List Emit
  | .connection id => if id ∈ connectedIds s then (s, []) else (onConnection s id, [])
  | .join id username time =>
      if id ∈ connectedIds s then onJoin s id username time else (s, [])
  | .typing id username => if id ∈ connectedIds s then onTyping s id username else (s, [])
  | .chat id msg time => if id ∈ connectedIds s then onChat s id msg time else (s, [])
  | .fileUpload id fileData time =>
      if id ∈ connectedIds s then onFileUpload s id fileData time else (s, [])
  | .disconnect id time => if id ∈ connectedIds s then onDisconnect s id time else (s, [])
  | .upload file username stamp env =>
      ((handleUpload s file username stamp env).1, (handleUpload s file username stamp env).2.1)

/-- State after a sequence of events. -/
def run : ServerState → List Event → ServerState
  | s, [] => s
  | s, e :: es => run (step s e).1 es

/-! ## History as seen from the trace -/

/-- The message an event adds to History: the `messageData` of a `chat` or
`file-upload` event of a connected socket and of an upload that carried a
file; nothing for any other event. -/
def appended (s : ServerState) : Event → Option Message
  | .chat id msg time => if id ∈ connectedIds s then some (chatMessage s id msg time) else none
  | .fileUpload id fileData time =>
      if id ∈ connectedIds s then some (fileUploadMessage s id fileData time) else none
  | .upload file username stamp env =>
      match (multerSingle s file stamp).2 with
      | none => none
      | some f =>
          some (uploadMessage f username env.time (processFile (multerSingle s file stamp).1 f env))
  | _ => none

/-- The messages appended by a sequence of events, in processing order. -/
def appendedSoFar : ServerState → List Event → List Message
  | _, [] => []
  | s, e :: es => (appended s e).toList ++ appendedSoFar (step s e).1 es

/-- Recognises a `chat-history` emission. -/
def isChatHistory (e : Emit) : Bool :=
  match e.event with
  | .chatHistory _ => true
  | _ => false

/-! ## The roster as seen from the sockets -/

/-- One entry `(id, name)` per connected socket whose `username` has been set by
a join, in connection order. -/
def joinedSockets (s : ServerState) : List (SocketId × String) :=
  s.sockets.filterMap (fun k => k.username.map (fun n => (k.id, n)))

/-- Consistency of the three views of presence: socket ids are unique, map keys
are unique, and the map holds `(id, name)` exactly when the connected socket
`id` carries the username `name`. -/
structure Inv (s : ServerState) : Prop where
  ids_nodup : (connectedIds s).Nodup
  keys_nodup : (mapKeys s.onlineUsers).Nodup
  mem_iff : ∀ id n, (id, n) ∈ s.onlineUsers ↔
    ({ id := id, username := some n } : Socket) ∈ s.sockets

/-- Ids of the sockets that have an entry in `onlineUsers`, in the order of the
entries, which is the order of the roster. -/
def registeredIds (s : ServerState) : List SocketId :=
  mapKeys s.onlineUsers

/-- Recognises a `chat` emission. -/
def isChat (e : Emit) : Bool :=
  match e.event with
  | .chat _ => true
  | _ => false

/-! ## Concrete runs -/

/-- Alice connects, joins and says "hi"; then a second socket connects. -/
def aliceThenSecond : List Event :=
  [.connection 1, .join 1 "alice" "10:00", .chat 1 "hi" "10:01", .connection 2]

/-- A run with every kind of event: Alice joins, chats and sends an inline
image; Bob connects, types, joins, uploads `notes.txt` over HTTP and leaves; a
third socket connects. -/
def busyRun : List Event :=
  [.connection 1, .join 1 "alice" "10:00", .chat 1 "hi" "10:01",
   .fileUpload 1
      { fileName := "cat.png", fileType := "image/png", fileSize := 3,
        fileContent := "data:image/png;base64,AAAA", type := "image" } "10:02",
   .connection 2, .typing 2 "bob", .join 2 "bob" "10:03",
   .upload (some { originalname := "notes.txt", mimetype := "text/plain", size := 12 })
      (some "bob") 1700000000000
      { now := 1700000000500, time := "10:04", transcode := .ffmpegError },
   .disconnect 2 "10:05", .connection 3]

/-- Two sockets join in the order 2, 1; socket 2 joins again under a new name; a
third socket joins under a name already in use. -/
def rejoinRun : List Event :=
  [.connection 1, .connection 2, .join 2 "bob" "10:00", .join 1 "alice" "10:01",
   .join 2 "bobby" "10:02", .connection 3, .join 3 "alice" "10:03"]

/-- Alice and Bob have both joined. -/
def aliceAndBob : List Event :=
  aliceThenSecond ++ [.join 2 "bob" "10:02"]

/-- Alice has joined; the second socket has joined under the empty name. -/
def aliceAndNameless : List Event :=
  aliceThenSecond ++ [.join 2 "" "10:02"]

/-- A video upload. -/
def clipUpload : IncomingFile :=
  { originalname := "clip.mov", mimetype := "video/quicktime", size := 5000 }

/-- Environment in which the transcoder, if started, reports `end` and
`fs.statSync` then throws. -/
def statThrows : UploadEnv :=
  { now := 1700000000500, time := "10:10", transcode := .endThenStatThrew }

/-- Environment in which the transcoder, if started, reports an error. -/
def toolFails : UploadEnv :=
  { now := 1700000000500, time := "10:10", transcode := .ffmpegError }

/-- The text file of scenario D. -/
def notesUpload : IncomingFile :=
  { originalname := "notes.txt", mimetype := "text/plain", size := 12 }

/-- An inline payload whose own `type` field says `video`. -/
def mislabelled : FileData :=
  { fileName := "cat.png", fileType := "image/png", fileSize := 3,
    fileContent := "data:image/png;base64,AAAA", type := "video" }

/-- Alice and Bob have joined, Bob has left, and a third socket has connected. -/
def bobCameAndWent : List Event :=
  aliceAndBob ++ [.disconnect 2 "10:03", .connection 3]

/-- The events whose handler pushes to `chatHistory`: `chat`, `file-upload` and
the upload route. -/
def pushesMessage : Event → Bool
  | .chat _ _ _ => true
  | .fileUpload _ _ _ => true
  | .upload _ _ _ _ => true
  | _ => false

/-- A file part whose name tries to leave the uploads directory. -/
def traversalPart : FilePart :=
  { filename := "../../etc/pass wd.txt", mimeType := "text/plain", size := 12 }

/-- A file part named `..`. -/
def dotsPart : FilePart :=
  { filename := "..", mimeType := "text/plain", size := 12 }

/-! ## Theorems -/

/-! ### The map -/

theorem mapKeys_mapSet (m : List (SocketId × String)) (k : SocketId) (v : String) :
    mapKeys (mapSet m k v) = if k ∈ mapKeys m then mapKeys m else mapKeys m ++ [k] := by
  induction m with
  | nil => simp [mapSet, mapKeys]
  | cons e m ih =>
    obtain ⟨k0, v0⟩ := e
    by_cases h : k0 = k
    · subst h
      simp [mapSet, mapKeys]
    · have h' : ¬ k = k0 := fun hk => h hk.symm
      simp only [mapKeys] at ih
      by_cases hm : k ∈ List.map Prod.fst m
      · simp [mapSet, mapKeys, h, h', ih, hm]
      · simp [mapSet, mapKeys, h, h', ih, hm]

theorem mem_mapSet (m : List (SocketId × String)) (k : SocketId) (v : String)
    (hm : (mapKeys m).Nodup) (a : SocketId) (n : String) :
    (a, n) ∈ mapSet m k v ↔ (a = k ∧ n = v) ∨ (a ≠ k ∧ (a, n) ∈ m) := by
  induction m with
  | nil => simp [mapSet]
  | cons e m ih =>
    obtain ⟨k0, v0⟩ := e
    simp only [mapKeys, List.map_cons, List.nodup_cons, List.mem_map, Prod.exists,
      exists_and_right, exists_eq_right, not_exists] at hm
    have ih' := ih (by simpa [mapKeys] using hm.2)
    by_cases h : k0 = k
    · subst h
      simp only [mapSet, if_true, List.mem_cons, Prod.mk.injEq]
      constructor
      · rintro (h1 | h1)
        · exact Or.inl h1
        · refine Or.inr ⟨?_, Or.inr h1⟩
          rintro rfl
          exact hm.1 n h1
      · rintro (h1 | ⟨h1, h2 | h2⟩)
        · exact Or.inl h1
        · exact absurd h2.1 h1
        · exact Or.inr h2
    · simp only [mapSet, h, if_false, List.mem_cons, Prod.mk.injEq, ih']
      constructor
      · rintro (⟨rfl, rfl⟩ | h1 | ⟨h1, h2⟩)
        · exact Or.inr ⟨h, Or.inl ⟨rfl, rfl⟩⟩
        · exact Or.inl h1
        · exact Or.inr ⟨h1, Or.inr h2⟩
      · rintro (h1 | ⟨h1, h2 | h2⟩)
        · exact Or.inr (Or.inl h1)
        · exact Or.inl h2
        · exact Or.inr (Or.inr ⟨h1, h2⟩)

theorem mapKeys_mapDelete (m : List (SocketId × String)) (k : SocketId) :
    mapKeys (mapDelete m k) = (mapKeys m).filter (fun a => decide (a ≠ k)) := by
  simp only [mapDelete, mapKeys, List.filter_map]
  rfl

theorem mem_mapDelete (m : List (SocketId × String)) (k a : SocketId) (n : String) :
    (a, n) ∈ mapDelete m k ↔ (a, n) ∈ m ∧ a ≠ k := by
  simp [mapDelete]

/-! ### Sockets -/

theorem connectedIds_setUsername (l : List Socket) (id : SocketId) (v : String) :
    (setUsername l id v).map Socket.id = l.map Socket.id := by
  induction l with
  | nil => simp [setUsername]
  | cons k l ih =>
    simp only [setUsername] at ih
    by_cases h : k.id = id <;> simp [setUsername, h, ih]

theorem mem_setUsername (l : List Socket) (id : SocketId) (v : String) (a : SocketId)
    (n : String) :
    ({ id := a, username := some n } : Socket) ∈ setUsername l id v ↔
      (a = id ∧ n = v ∧ id ∈ l.map Socket.id)
        ∨ (a ≠ id ∧ ({ id := a, username := some n } : Socket) ∈ l) := by
  simp only [setUsername, List.mem_map]
  constructor
  · rintro ⟨k, hk, hk'⟩
    by_cases h : k.id = id
    · simp only [h, if_true, Socket.mk.injEq, Option.some.injEq] at hk'
      exact Or.inl ⟨hk'.1.symm, hk'.2.symm, k, hk, h⟩
    · simp only [h, if_false] at hk'
      subst hk'
      exact Or.inr ⟨h, hk⟩
  · rintro (⟨rfl, rfl, k, hk, hk'⟩ | ⟨h1, h2⟩)
    · exact ⟨k, hk, by simp [hk']⟩
    · exact ⟨_, h2, by simp [h1]⟩

theorem mem_joinedSockets (s : ServerState) (a : SocketId) (n : String) :
    (a, n) ∈ joinedSockets s ↔ ({ id := a, username := some n } : Socket) ∈ s.sockets := by
  simp only [joinedSockets, List.mem_filterMap, Option.map_eq_some', Prod.mk.injEq]
  constructor
  · rintro ⟨k, hk, n', hn, rfl, rfl⟩
    obtain ⟨i, u⟩ := k
    simp only at hn
    subst hn
    exact hk
  · intro h
    exact ⟨_, h, n, rfl, rfl, rfl⟩

theorem nodup_joinedSockets (s : ServerState) (h : (connectedIds s).Nodup) :
    (joinedSockets s).Nodup := by
  refine List.Nodup.filterMap ?_ (List.Nodup.of_map Socket.id h)
  intro k k' b hb hb'
  obtain ⟨i, u⟩ := k
  obtain ⟨i', u'⟩ := k'
  simp only [Option.mem_def, Option.map_eq_some'] at hb hb'
  obtain ⟨n, hn, rfl⟩ := hb
  obtain ⟨n', hn', h2⟩ := hb'
  simp only [Prod.mk.injEq] at h2
  simp only [Socket.mk.injEq]
  exact ⟨h2.1.symm, by rw [hn, hn', h2.2]⟩


theorem step_chatHistory (s : ServerState) (e : Event) :
    (step s e).1.chatHistory = s.chatHistory ++ (appended s e).toList := by
  cases e with
  | connection id => by_cases h : id ∈ connectedIds s <;> simp [step, appended, h, onConnection]
  | join id username time =>
      by_cases h : id ∈ connectedIds s <;> simp [step, appended, h, onJoin]
  | typing id username => by_cases h : id ∈ connectedIds s <;> simp [step, appended, h, onTyping]
  | chat id msg time => by_cases h : id ∈ connectedIds s <;> simp [step, appended, h, onChat]
  | fileUpload id fileData time =>
      by_cases h : id ∈ connectedIds s <;> simp [step, appended, h, onFileUpload]
  | disconnect id time =>
      by_cases h : id ∈ connectedIds s <;> simp [step, appended, h, onDisconnect]
  | upload file username stamp env =>
      cases file with
      | none => simp [step, appended, handleUpload, multerSingle, postUpload]
      | some f => simp [step, appended, handleUpload, multerSingle, postUpload]

theorem run_chatHistory (s : ServerState) (evs : List Event) :
    (run s evs).chatHistory = s.chatHistory ++ appendedSoFar s evs := by
  induction evs generalizing s with
  | nil => simp [run, appendedSoFar]
  | cons e es ih => simp [run, appendedSoFar, ih, step_chatHistory]

theorem filter_isChatHistory_ioEmit (s : ServerState) (ev : ServerEvent)
    (h : isChatHistory { target := 0, event := ev } = false) :
    (ioEmit s ev).filter isChatHistory = [] := by
  simp only [ioEmit, List.filter_eq_nil_iff, List.mem_map]
  rintro e ⟨k, -, rfl⟩
  simpa [isChatHistory] using h

theorem filter_isChatHistory_broadcastEmit (s : ServerState) (id : SocketId) (ev : ServerEvent)
    (h : isChatHistory { target := 0, event := ev } = false) :
    (broadcastEmit s id ev).filter isChatHistory = [] := by
  simp only [broadcastEmit, List.filter_eq_nil_iff, List.mem_map]
  rintro e ⟨k, -, rfl⟩
  simpa [isChatHistory] using h

/-- C1: after any sequence of events, a join makes the server send exactly one
`chat-history` event, to the joining socket, and its payload is the list of the
messages appended by the chat, file-upload and upload events so far, in
processing order. -/
theorem chat_history_replay (evs : List Event) (id : SocketId) (username time : String)
    (h : id ∈ connectedIds (run init evs)) :
    (step (run init evs) (.join id username time)).2.filter isChatHistory
      = [{ target := id, event := .chatHistory (appendedSoFar init evs) }] := by
  have hh := run_chatHistory init evs
  simp only [init, List.nil_append] at hh
  simp only [step, h, if_true, onJoin, List.filter_append]
  rw [filter_isChatHistory_ioEmit _ _ (by simp [isChatHistory]),
    filter_isChatHistory_broadcastEmit _ _ _ (by simp [isChatHistory])]
  simp [socketEmit, isChatHistory, hh, init]

/-! ### The presence invariant holds in every reachable state -/

theorem inv_of_eq {s t : ServerState} (h : Inv s) (h1 : t.sockets = s.sockets)
    (h2 : t.onlineUsers = s.onlineUsers) : Inv t := by
  refine ⟨?_, ?_, ?_⟩
  · simpa [connectedIds, h1] using h.ids_nodup
  · simpa [h2] using h.keys_nodup
  · intro a n
    rw [h1, h2]
    exact h.mem_iff a n

theorem inv_init : Inv init :=
  ⟨by simp [init, connectedIds], by simp [init, mapKeys], by simp [init]⟩

theorem inv_onConnection (s : ServerState) (id : SocketId) (h : Inv s)
    (hid : id ∉ connectedIds s) : Inv (onConnection s id) := by
  refine ⟨?_, h.keys_nodup, ?_⟩
  · have h1 := h.ids_nodup
    simp only [connectedIds] at h1 hid ⊢
    simp only [onConnection, List.map_append, List.map_cons, List.map_nil]
    rw [List.nodup_append]
    refine ⟨h1, List.nodup_singleton _, ?_⟩
    intro a ha ha'
    simp only [List.mem_singleton] at ha'
    exact hid (ha' ▸ ha)
  · intro a n
    simp [onConnection, h.mem_iff]

theorem inv_onJoin (s : ServerState) (id : SocketId) (username time : String) (h : Inv s)
    (hid : id ∈ connectedIds s) : Inv (onJoin s id username time).1 := by
  refine ⟨?_, ?_, ?_⟩
  · simpa [onJoin, connectedIds, connectedIds_setUsername] using h.ids_nodup
  · simp only [onJoin, mapKeys_mapSet]
    split
    · exact h.keys_nodup
    · rename_i hk
      rw [List.nodup_append]
      refine ⟨h.keys_nodup, List.nodup_singleton _, ?_⟩
      intro a ha ha'
      simp only [List.mem_singleton] at ha'
      exact hk (ha' ▸ ha)
  · intro a n
    simp only [onJoin]
    rw [mem_mapSet _ _ _ h.keys_nodup, mem_setUsername, h.mem_iff]
    simp only [connectedIds] at hid
    simp [hid]

theorem inv_onDisconnect (s : ServerState) (id : SocketId) (time : String) (h : Inv s) :
    Inv (onDisconnect s id time).1 := by
  refine ⟨?_, ?_, ?_⟩
  · simp only [onDisconnect, connectedIds]
    exact List.Nodup.sublist ((List.filter_sublist _).map _) h.ids_nodup
  · simp only [onDisconnect, mapKeys_mapDelete]
    exact h.keys_nodup.filter _
  · intro a n
    simp only [onDisconnect, mem_mapDelete, List.mem_filter, h.mem_iff]
    simp

theorem inv_step (s : ServerState) (e : Event) (h : Inv s) : Inv (step s e).1 := by
  cases e with
  | connection id =>
      by_cases hid : id ∈ connectedIds s
      · simpa [step, hid] using h
      · simpa [step, hid] using inv_onConnection s id h hid
  | join id username time =>
      by_cases hid : id ∈ connectedIds s
      · simpa [step, hid] using inv_onJoin s id username time h hid
      · simpa [step, hid] using h
  | typing id username =>
      by_cases hid : id ∈ connectedIds s <;> simpa [step, hid, onTyping] using h
  | chat id msg time =>
      by_cases hid : id ∈ connectedIds s
      · simp only [step, hid, if_true]
        exact inv_of_eq h rfl rfl
      · simpa [step, hid] using h
  | fileUpload id fileData time =>
      by_cases hid : id ∈ connectedIds s
      · simp only [step, hid, if_true]
        exact inv_of_eq h rfl rfl
      · simpa [step, hid] using h
  | disconnect id time =>
      by_cases hid : id ∈ connectedIds s
      · simpa [step, hid] using inv_onDisconnect s id time h
      · simpa [step, hid] using h
  | upload file username stamp env =>
      cases file with
      | none => simpa [step, handleUpload, multerSingle, postUpload] using h
      | some f =>
          simp only [step, handleUpload, multerSingle, postUpload]
          exact inv_of_eq h rfl rfl

theorem inv_run (s : ServerState) (evs : List Event) (h : Inv s) : Inv (run s evs) := by
  induction evs generalizing s with
  | nil => simpa [run] using h
  | cons e es ih => exact ih _ (inv_step s e h)

theorem run_append (s : ServerState) (xs ys : List Event) :
    run s (xs ++ ys) = run (run s xs) ys := by
  induction xs generalizing s with
  | nil => simp [run]
  | cons e es ih => simp [run, ih]

/-! ### The roster -/

theorem find_of_mem (l : List Socket) (hnd : (l.map Socket.id).Nodup) (k : Socket)
    (hk : k ∈ l) : l.find? (fun x => decide (x.id = k.id)) = some k := by
  induction l with
  | nil => simp at hk
  | cons x l ih =>
    simp only [List.map_cons, List.nodup_cons, List.mem_map, not_exists, not_and] at hnd
    by_cases hx : x.id = k.id
    · have : k = x := by
        rcases List.mem_cons.mp hk with h | h
        · exact h
        · exact absurd hx.symm (hnd.1 k h)
      simp [List.find?_cons, this]
    · have hk' : k ∈ l := by
        rcases List.mem_cons.mp hk with h | h
        · exact absurd (by rw [h]) hx
        · exact h
      simp [List.find?_cons, hx, ih hnd.2 hk']

theorem usernameOf_eq_some_iff (s : ServerState) (h : (connectedIds s).Nodup) (id : SocketId)
    (n : String) :
    usernameOf s id = some n ↔ ({ id := id, username := some n } : Socket) ∈ s.sockets := by
  constructor
  · intro hu
    simp only [usernameOf, Option.bind_eq_some] at hu
    obtain ⟨k, hk, hn⟩ := hu
    have h1 := List.mem_of_find?_eq_some hk
    have h2 := List.find?_some hk
    simp only [decide_eq_true_eq] at h2
    obtain ⟨i, u⟩ := k
    simp only at h2 hn
    subst h2 hn
    exact h1
  · intro hm
    have := find_of_mem s.sockets h _ hm
    simp only at this
    simp [usernameOf, this]

theorem mem_registeredIds (s : ServerState) (h : Inv s) (id : SocketId) :
    id ∈ registeredIds s ↔ id ∈ connectedIds s ∧ (usernameOf s id).isSome = true := by
  simp only [registeredIds, mapKeys, List.mem_map, Prod.exists, exists_and_right,
    exists_eq_right, Option.isSome_iff_exists, usernameOf_eq_some_iff s h.ids_nodup,
    h.mem_iff, connectedIds]
  constructor
  · rintro ⟨n, hn⟩
    exact ⟨⟨_, hn, rfl⟩, n, hn⟩
  · rintro ⟨-, n, hn⟩
    exact ⟨n, hn⟩

theorem roster_eq_usernames (s : ServerState) (h : Inv s) :
    (roster s).map some = (registeredIds s).map (usernameOf s) := by
  simp only [roster, mapValues, registeredIds, mapKeys, List.map_map]
  apply List.map_congr_left
  rintro ⟨a, n⟩ ha
  simp only [Function.comp_apply]
  exact ((usernameOf_eq_some_iff s h.ids_nodup a n).mpr ((h.mem_iff a n).mp ha)).symm

theorem length_joinedSockets (s : ServerState) :
    (joinedSockets s).length = (s.sockets.filter (fun k => k.username.isSome)).length := by
  simp only [joinedSockets]
  induction s.sockets with
  | nil => simp
  | cons k l ih =>
    obtain ⟨i, u⟩ := k
    cases u with
    | none => simpa [List.filterMap_cons, List.filter_cons] using ih
    | some n => simpa [List.filterMap_cons, List.filter_cons] using ih

theorem onlineUsers_perm_joinedSockets (s : ServerState) (h : Inv s) :
    List.Perm s.onlineUsers (joinedSockets s) := by
  rw [List.perm_ext_iff_of_nodup (List.Nodup.of_map Prod.fst h.keys_nodup)
    (nodup_joinedSockets s h.ids_nodup)]
  rintro ⟨a, n⟩
  rw [mem_joinedSockets, h.mem_iff]

theorem length_roster (s : ServerState) (h : Inv s) :
    (roster s).length = (s.sockets.filter (fun k => k.username.isSome)).length := by
  rw [← length_joinedSockets, ← (onlineUsers_perm_joinedSockets s h).length_eq]
  simp [roster, mapValues]

/-! ### Order of the roster -/

theorem registeredIds_step (s : ServerState) (e : Event) :
    (∃ id, id ∉ registeredIds s ∧ registeredIds (step s e).1 = registeredIds s ++ [id])
      ∨ List.Sublist (registeredIds (step s e).1) (registeredIds s) := by
  cases e with
  | connection id =>
      by_cases hid : id ∈ connectedIds s <;>
        simp [step, hid, onConnection, registeredIds]
  | join id username time =>
      by_cases hid : id ∈ connectedIds s
      · simp only [step, hid, if_true, onJoin, registeredIds, mapKeys_mapSet]
        by_cases hk : id ∈ mapKeys s.onlineUsers
        · simp [hk]
        · exact Or.inl ⟨id, hk, by simp [hk]⟩
      · simp [step, hid]
  | typing id username =>
      by_cases hid : id ∈ connectedIds s <;> simp [step, hid, onTyping]
  | chat id msg time =>
      by_cases hid : id ∈ connectedIds s <;> simp [step, hid, onChat, registeredIds]
  | fileUpload id fileData time =>
      by_cases hid : id ∈ connectedIds s <;> simp [step, hid, onFileUpload, registeredIds]
  | disconnect id time =>
      by_cases hid : id ∈ connectedIds s
      · refine Or.inr ?_
        simp only [step, hid, if_true, onDisconnect, registeredIds, mapKeys_mapDelete]
        exact List.filter_sublist _
      · simp [step, hid]
  | upload file username stamp env =>
      cases file with
      | none => simp [step, handleUpload, multerSingle, postUpload]
      | some f => simp [step, handleUpload, multerSingle, postUpload, registeredIds]

theorem pair_sublist_step (s : ServerState) (e : Event) (a b : SocketId)
    (h : List.Sublist [a, b] (registeredIds (step s e).1)) :
    List.Sublist [a, b] (registeredIds s) ∨ (a ∈ registeredIds s ∧ b ∉ registeredIds s) := by
  rcases registeredIds_step s e with ⟨id, hid, heq⟩ | hsub
  · rw [heq, List.sublist_append_iff] at h
    obtain ⟨l1, l2, hl, h1, h2⟩ := h
    rcases List.sublist_singleton.mp h2 with rfl | rfl
    · simp only [List.append_nil] at hl
      subst hl
      exact Or.inl h1
    · have hl' : [a] ++ [b] = l1 ++ [id] := by simpa using hl
      have hlen : ([a] : List SocketId).length = l1.length := by
        have := congrArg List.length hl'
        simp only [List.length_append, List.length_singleton] at this
        simp only [List.length_singleton]
        omega
      obtain ⟨ha, hb⟩ := List.append_inj hl' hlen
      simp only [List.cons.injEq, and_true] at hb
      subst ha hb
      exact Or.inr ⟨List.singleton_sublist.mp h1, hid⟩
  · exact Or.inl (h.trans hsub)

theorem registration_order (evs : List Event) (a b : SocketId)
    (h : List.Sublist [a, b] (registeredIds (run init evs))) :
    ∃ k, k ≤ evs.length ∧ a ∈ registeredIds (run init (evs.take k))
      ∧ b ∉ registeredIds (run init (evs.take k))
      ∧ ∀ j, k ≤ j → j ≤ evs.length → a ∈ registeredIds (run init (evs.take j)) := by
  induction evs using List.reverseRecOn generalizing a b with
  | nil => simp [run, init, registeredIds, mapKeys] at h
  | append_singleton es e ih =>
    have hrun : run init (es ++ [e]) = (step (run init es) e).1 := by
      rw [run_append]; rfl
    have ha : a ∈ registeredIds (run init (es ++ [e])) :=
      h.subset (List.mem_cons_self _ _)
    rw [hrun] at h
    have hlast : ∀ j, es.length ≤ j → j ≤ (es ++ [e]).length → j ≠ es.length →
        (es ++ [e]).take j = es ++ [e] := by
      intro j _ h2 _
      apply List.take_of_length_le
      simp only [List.length_append, List.length_singleton] at h2 ⊢
      omega
    rcases pair_sublist_step _ e a b h with h1 | ⟨h1, h2⟩
    · obtain ⟨k, hk, hka, hkb, hall⟩ := ih a b h1
      refine ⟨k, by simp only [List.length_append, List.length_singleton]; omega, ?_, ?_, ?_⟩
      · rwa [List.take_append_of_le_length hk]
      · rwa [List.take_append_of_le_length hk]
      · intro j hj1 hj2
        by_cases hj : j ≤ es.length
        · rw [List.take_append_of_le_length hj]
          exact hall j hj1 hj
        · rw [hlast j (by omega) hj2 (by omega)]
          exact ha
    · refine ⟨es.length, by simp, ?_, ?_, ?_⟩
      · rwa [List.take_append_of_le_length le_rfl, List.take_length]
      · rwa [List.take_append_of_le_length le_rfl, List.take_length]
      · intro j hj1 hj2
        by_cases hj : j = es.length
        · subst hj
          rwa [List.take_append_of_le_length le_rfl, List.take_length]
        · rw [hlast j hj1 hj2 hj]
          exact ha

/-! ### What the roster broadcast carries -/

theorem event_of_mem_ioEmit (s : ServerState) (ev : ServerEvent) (x : Emit)
    (h : x ∈ ioEmit s ev) : x.event = ev := by
  simp only [ioEmit, List.mem_map] at h
  obtain ⟨k, -, rfl⟩ := h
  rfl

theorem event_of_mem_broadcastEmit (s : ServerState) (id : SocketId) (ev : ServerEvent)
    (x : Emit) (h : x ∈ broadcastEmit s id ev) : x.event = ev := by
  simp only [broadcastEmit, List.mem_map] at h
  obtain ⟨k, -, rfl⟩ := h
  rfl

theorem mem_ioEmit (s : ServerState) (ev : ServerEvent) (k : SocketId) (e : ServerEvent) :
    ({ target := k, event := e } : Emit) ∈ ioEmit s ev ↔ k ∈ connectedIds s ∧ e = ev := by
  simp only [ioEmit, connectedIds, List.mem_map, Emit.mk.injEq]
  constructor
  · rintro ⟨x, hx, rfl, rfl⟩
    exact ⟨⟨x, hx, rfl⟩, rfl⟩
  · rintro ⟨⟨x, hx, rfl⟩, rfl⟩
    exact ⟨x, hx, rfl, rfl⟩

theorem mem_broadcastEmit (s : ServerState) (id : SocketId) (ev : ServerEvent) (k : SocketId)
    (e : ServerEvent) :
    ({ target := k, event := e } : Emit) ∈ broadcastEmit s id ev ↔
      k ∈ connectedIds s ∧ k ≠ id ∧ e = ev := by
  simp only [broadcastEmit, connectedIds, List.mem_map, List.mem_filter, Emit.mk.injEq,
    decide_eq_true_eq]
  constructor
  · rintro ⟨x, ⟨hx, hne⟩, rfl, rfl⟩
    exact ⟨⟨x, hx, rfl⟩, hne, rfl⟩
  · rintro ⟨⟨x, hx, rfl⟩, hne, rfl⟩
    exact ⟨x, ⟨hx, hne⟩, rfl, rfl⟩

theorem onlineUsers_payload (s : ServerState) (e : Event) (x : Emit) (names : List String)
    (hx : x ∈ (step s e).2) (hev : x.event = .onlineUsers names) :
    names = roster (step s e).1 := by
  cases e with
  | connection id =>
      by_cases hid : id ∈ connectedIds s <;> simp [step, hid] at hx
  | join id username time =>
      by_cases hid : id ∈ connectedIds s
      · simp only [step, hid, if_true, onJoin, List.mem_append] at hx ⊢
        rcases hx with (hx | hx) | hx
        · have := event_of_mem_ioEmit _ _ _ hx
          rw [hev] at this
          exact ServerEvent.onlineUsers.inj this
        · have := event_of_mem_broadcastEmit _ _ _ _ hx
          rw [hev] at this
          exact absurd this (by simp)
        · simp only [socketEmit, List.mem_singleton] at hx
          rw [hx] at hev
          exact absurd hev (by simp)
      · simp [step, hid] at hx
  | typing id username =>
      by_cases hid : id ∈ connectedIds s
      · simp only [step, hid, if_true, onTyping] at hx
        have := event_of_mem_broadcastEmit _ _ _ _ hx
        rw [hev] at this
        exact absurd this (by simp)
      · simp [step, hid] at hx
  | chat id msg time =>
      by_cases hid : id ∈ connectedIds s
      · simp only [step, hid, if_true, onChat] at hx
        have := event_of_mem_ioEmit _ _ _ hx
        rw [hev] at this
        exact absurd this (by simp)
      · simp [step, hid] at hx
  | fileUpload id fileData time =>
      by_cases hid : id ∈ connectedIds s
      · simp only [step, hid, if_true, onFileUpload] at hx
        have := event_of_mem_ioEmit _ _ _ hx
        rw [hev] at this
        exact absurd this (by simp)
      · simp [step, hid] at hx
  | disconnect id time =>
      by_cases hid : id ∈ connectedIds s
      · simp only [step, hid, if_true, onDisconnect, List.mem_append] at hx ⊢
        rcases hx with hx | hx
        · have := event_of_mem_ioEmit _ _ _ hx
          rw [hev] at this
          exact ServerEvent.onlineUsers.inj this
        · split at hx
          · have := event_of_mem_ioEmit _ _ _ hx
            rw [hev] at this
            exact absurd this (by simp)
          · simp at hx
      · simp [step, hid] at hx
  | upload file username stamp env =>
      cases file with
      | none => simp [step, handleUpload, multerSingle, postUpload] at hx
      | some f =>
          simp only [step, handleUpload, multerSingle, postUpload] at hx
          have := event_of_mem_ioEmit _ _ _ hx
          rw [hev] at this
          exact absurd this (by simp)

theorem roster_after_join (s : ServerState) (h : Inv s) (id : SocketId)
    (username time : String) (hid : id ∈ connectedIds s) :
    (∀ k ∈ connectedIds s,
        ({ target := k,
           event := .onlineUsers (roster (step s (.join id username time)).1) } : Emit)
          ∈ (step s (.join id username time)).2)
      ∧ username ∈ roster (step s (.join id username time)).1
      ∧ ∀ k n, k ≠ id → usernameOf s k = some n →
          n ∈ roster (step s (.join id username time)).1 := by
  simp only [step, hid, if_true, onJoin]
  refine ⟨?_, ?_, ?_⟩
  · intro k hk
    refine List.mem_append_left _ (List.mem_append_left _ ?_)
    rw [mem_ioEmit]
    exact ⟨by simpa [connectedIds, connectedIds_setUsername] using hk, rfl⟩
  · simp only [roster, mapValues, List.mem_map, Prod.exists, exists_eq_right]
    exact ⟨id, (mem_mapSet _ _ _ h.keys_nodup _ _).mpr (Or.inl ⟨rfl, rfl⟩)⟩
  · intro k n hk hn
    simp only [roster, mapValues, List.mem_map, Prod.exists, exists_eq_right]
    refine ⟨k, (mem_mapSet _ _ _ h.keys_nodup _ _).mpr (Or.inr ⟨hk, ?_⟩)⟩
    exact (h.mem_iff k n).mpr ((usernameOf_eq_some_iff s h.ids_nodup k n).mp hn)

/-- C2: in every reachable state the roster (the payload of every `online-users`
broadcast) lists, entry by entry, the usernames of the registered sockets; these
are without repetition the connected sockets that have joined, so the roster has
as many entries as there are such sockets; an entry that precedes another was
registered at a moment when the other was not and has stayed registered since;
and the roster broadcast to everyone by a join contains the new name and the
name of every other joined connection. -/
theorem roster_online_users (evs : List Event) :
    let s := run init evs
    (roster s).map some = (registeredIds s).map (usernameOf s)
    ∧ (registeredIds s).Nodup
    ∧ (∀ id, id ∈ registeredIds s ↔ id ∈ connectedIds s ∧ (usernameOf s id).isSome = true)
    ∧ (roster s).length = (s.sockets.filter (fun k => k.username.isSome)).length
    ∧ (∀ a b, List.Sublist [a, b] (registeredIds s) →
        ∃ k, k ≤ evs.length ∧ a ∈ registeredIds (run init (evs.take k))
          ∧ b ∉ registeredIds (run init (evs.take k))
          ∧ ∀ j, k ≤ j → j ≤ evs.length → a ∈ registeredIds (run init (evs.take j)))
    ∧ (∀ e x names, x ∈ (step s e).2 → x.event = .onlineUsers names →
        names = roster (step s e).1)
    ∧ (∀ id username time, id ∈ connectedIds s →
        (∀ k ∈ connectedIds s,
            ({ target := k,
               event := .onlineUsers (roster (step s (.join id username time)).1) } : Emit)
              ∈ (step s (.join id username time)).2)
          ∧ username ∈ roster (step s (.join id username time)).1
          ∧ ∀ k n, k ≠ id → usernameOf s k = some n →
              n ∈ roster (step s (.join id username time)).1) := by
  intro s
  have h : Inv s := inv_run init evs inv_init
  exact ⟨roster_eq_usernames s h, h.keys_nodup, mem_registeredIds s h, length_roster s h,
    registration_order evs, onlineUsers_payload s, roster_after_join s h⟩

/-- Scenario check for C1: the socket that joins after `busyRun` is the only one
to get `chat-history`, and the payload is Alice's text, her image and Bob's
upload, in that order. -/
theorem chat_history_replay_witness :
    3 ∈ connectedIds (run init busyRun)
    ∧ (step (run init busyRun) (.join 3 "carol" "10:06")).2.filter isChatHistory
        = [{ target := 3, event := .chatHistory (appendedSoFar init busyRun) }]
    ∧ appendedSoFar init busyRun
        = [{ sender := some "alice", message := "hi", timestamp := "10:01", type := "text" },
           { sender := some "alice", message := "cat.png", timestamp := "10:02",
             type := "image", file := some "data:image/png;base64,AAAA",
             fileType := some "image/png", fileName := some "cat.png", fileSize := some 3 },
           { sender := some "bob", message := "notes.txt", timestamp := "10:04",
             type := "file", file := some "/uploads/1700000000000-notes.txt",
             fileType := some "text/plain", fileName := some "notes.txt",
             fileSize := some 12 }] :=
  ⟨by decide, chat_history_replay busyRun 3 "carol" "10:06" (by decide), by decide⟩

/-- Scenario check for C2: in `rejoinRun` the roster follows the order of first
registration (2, 1, 3), shows the latest name of socket 2, repeats the name used
twice, and has one entry per joined socket. -/
theorem roster_online_users_witness :
    roster (run init rejoinRun) = ["bobby", "alice", "alice"]
    ∧ registeredIds (run init rejoinRun) = [2, 1, 3]
    ∧ (roster (run init rejoinRun)).length
      = ((run init rejoinRun).sockets.filter (fun k => k.username.isSome)).length :=
  ⟨by decide, by decide, (roster_online_users rejoinRun).2.2.2.1⟩

/-! ### Chat and typing -/

theorem connected_of_usernameOf (s : ServerState) (id : SocketId) (n : String)
    (h : usernameOf s id = some n) : id ∈ connectedIds s := by
  simp only [usernameOf, Option.bind_eq_some] at h
  obtain ⟨k, hk, -⟩ := h
  have h1 := List.mem_of_find?_eq_some hk
  have h2 := List.find?_some hk
  simp only [decide_eq_true_eq] at h2
  simp only [connectedIds, List.mem_map]
  exact ⟨k, h1, h2⟩

theorem ioEmit_eq_map (s : ServerState) (ev : ServerEvent) :
    ioEmit s ev = (connectedIds s).map (fun k => { target := k, event := ev }) := by
  simp [ioEmit, connectedIds]

theorem broadcastEmit_eq_map (s : ServerState) (id : SocketId) (ev : ServerEvent) :
    broadcastEmit s id ev
      = ((connectedIds s).filter (fun k => decide (k ≠ id))).map
          (fun k => { target := k, event := ev }) := by
  simp only [broadcastEmit, connectedIds, List.filter_map, List.map_map]
  rfl

/-- C3: a chat event from a joined connection appends to History exactly one
message, whose sender is the name stored at join, whose type is `text` and whose
text is the one sent; every connected socket, the sender included, gets that
message as one `chat` event and nothing else is emitted; sockets and roster are
untouched. -/
theorem chat_appends_and_delivers (s : ServerState) (id : SocketId) (n t time : String)
    (h : usernameOf s id = some n) :
    (step s (.chat id t time)).1.chatHistory
        = s.chatHistory ++ [{ sender := some n, message := t, timestamp := time, type := "text" }]
    ∧ (step s (.chat id t time)).2
        = (connectedIds s).map (fun k =>
            { target := k,
              event := .chat { sender := some n, message := t, timestamp := time,
                               type := "text" } })
    ∧ ({ target := id,
         event := .chat { sender := some n, message := t, timestamp := time,
                          type := "text" } } : Emit) ∈ (step s (.chat id t time)).2
    ∧ (step s (.chat id t time)).1.sockets = s.sockets
    ∧ (step s (.chat id t time)).1.onlineUsers = s.onlineUsers := by
  have hid := connected_of_usernameOf s id n h
  simp only [step, hid, if_true, onChat, chatMessage, h, ioEmit_eq_map, and_true, true_and,
    List.mem_map]
  exact ⟨id, hid, rfl⟩

/-- Scenario check for C3 (scenario B): Alice's "again" reaches Alice and Bob. -/
theorem chat_appends_and_delivers_witness :
    usernameOf (run init aliceAndBob) 1 = some "alice"
    ∧ (step (run init aliceAndBob) (.chat 1 "again" "10:03")).2
        = [{ target := 1,
             event := .chat { sender := some "alice", message := "again",
                              timestamp := "10:03", type := "text" } },
           { target := 2,
             event := .chat { sender := some "alice", message := "again",
                              timestamp := "10:03", type := "text" } }] :=
  ⟨by decide, (chat_appends_and_delivers (run init aliceAndBob) 1 "alice" "again" "10:03"
    (by decide)).2.1⟩

/-- C4: a typing event from a connected socket is relayed, as one `typing` event
each, to the connected sockets other than the sender and to nobody else; the
sender is not among the receivers; the state, hence roster and History, is
unchanged. -/
theorem typing_relayed_to_others (s : ServerState) (id : SocketId) (username : String)
    (hid : id ∈ connectedIds s) :
    (step s (.typing id username)).2
        = ((connectedIds s).filter (fun k => decide (k ≠ id))).map
            (fun k => { target := k, event := .typing username })
    ∧ (∀ x ∈ (step s (.typing id username)).2, x.target ≠ id)
    ∧ (∀ k, (∃ x ∈ (step s (.typing id username)).2, x.target = k)
          ↔ k ∈ connectedIds s ∧ k ≠ id)
    ∧ (step s (.typing id username)).1 = s
    ∧ roster (step s (.typing id username)).1 = roster s
    ∧ (step s (.typing id username)).1.chatHistory = s.chatHistory := by
  simp only [step, hid, if_true, onTyping, broadcastEmit_eq_map, and_true, true_and,
    List.mem_map, List.mem_filter, decide_eq_true_eq]
  refine ⟨?_, ?_⟩
  · rintro x ⟨k, ⟨-, hk⟩, rfl⟩
    exact hk
  · intro k
    constructor
    · rintro ⟨x, ⟨k', hk', rfl⟩, rfl⟩
      exact hk'
    · intro hk
      exact ⟨_, ⟨k, hk, rfl⟩, rfl⟩

/-- Scenario check for C4: when Bob types, only Alice is told. -/
theorem typing_relayed_to_others_witness :
    2 ∈ connectedIds (run init aliceAndBob)
    ∧ (step (run init aliceAndBob) (.typing 2 "bob")).2
        = [{ target := 1, event := .typing "bob" }] :=
  ⟨by decide, (typing_relayed_to_others (run init aliceAndBob) 2 "bob" (by decide)).1⟩

/-! ### Announcements of joins and leaves -/

theorem filter_isChat_map (l : List SocketId) (ev : ServerEvent) :
    (l.map (fun k => ({ target := k, event := ev } : Emit))).filter isChat
      = if isChat { target := 0, event := ev } then
          l.map (fun k => ({ target := k, event := ev } : Emit))
        else [] := by
  induction l with
  | nil => simp
  | cons k l ih =>
    by_cases h : isChat { target := 0, event := ev } = true
    · have hk : isChat { target := k, event := ev } = true := by simpa [isChat] using h
      simp only [h, if_true] at ih ⊢
      simp [List.filter_cons, hk, ih]
    · have hk : isChat { target := k, event := ev } = false := by simpa [isChat] using h
      simp only [h] at ih ⊢
      simp only [Bool.false_eq_true, if_false] at ih ⊢
      simp [List.filter_cons, hk, ih]

/-- C8 as stated fails: when Bob joins, the announcement "bob has joined the
chat." is not among the events sent to Bob's own socket. -/
theorem join_message_skips_joiner :
    2 ∈ connectedIds (run init aliceThenSecond)
    ∧ ({ target := 2,
         event := .chat (systemMessage "bob has joined the chat." "10:02") } : Emit)
        ∉ (step (run init aliceThenSecond) (.join 2 "bob" "10:02")).2 := by
  decide

/-- C8, amended: a join sends the announcement `<name> has joined the chat.`, as
one `chat` event each, to the connected sockets other than the joining one; these
are all the `chat` events of the join, so the joining socket gets none. -/
theorem join_message_to_others (s : ServerState) (id : SocketId) (username time : String)
    (hid : id ∈ connectedIds s) :
    (step s (.join id username time)).2.filter isChat
        = ((connectedIds s).filter (fun k => decide (k ≠ id))).map (fun k =>
            { target := k,
              event := .chat { sender := some "System",
                               message := username ++ " has joined the chat.",
                               timestamp := time, type := "text" } })
    ∧ ∀ x ∈ (step s (.join id username time)).2, x.target = id → isChat x = false := by
  have hids : connectedIds
      { s with sockets := setUsername s.sockets id username,
               onlineUsers := mapSet s.onlineUsers id username } = connectedIds s := by
    simp [connectedIds, connectedIds_setUsername]
  simp only [step, hid, if_true, onJoin, ioEmit_eq_map, broadcastEmit_eq_map, hids,
    List.filter_append, filter_isChat_map, socketEmit, systemMessage]
  refine ⟨by simp [isChat], ?_⟩
  intro x hx hxid
  simp only [List.mem_append, List.mem_map, List.mem_filter, decide_eq_true_eq,
    List.mem_singleton] at hx
  rcases hx with (⟨k, -, rfl⟩ | ⟨k, ⟨-, hk⟩, rfl⟩) | rfl
  · rfl
  · exact absurd hxid hk
  · rfl

/-- Scenario check for C8 (scenario A): when Bob joins, Alice alone gets the
announcement. -/
theorem join_message_to_others_witness :
    2 ∈ connectedIds (run init aliceThenSecond)
    ∧ (step (run init aliceThenSecond) (.join 2 "bob" "10:02")).2.filter isChat
        = [{ target := 1,
             event := .chat { sender := some "System", message := "bob has joined the chat.",
                              timestamp := "10:02", type := "text" } }] :=
  ⟨by decide, (join_message_to_others (run init aliceThenSecond) 2 "bob" "10:02"
    (by decide)).1⟩

/-- C9 fails on the code for the empty name: the second socket joined as "" (it
is on the roster), yet its disconnect sends the roster update only, no
" has left the chat." message. -/
theorem nameless_leaves_silently :
    usernameOf (run init aliceAndNameless) 2 = some ""
    ∧ roster (run init aliceAndNameless) = ["alice", ""]
    ∧ (step (run init aliceAndNameless) (.disconnect 2 "10:05")).2
        = [{ target := 1, event := .onlineUsers ["alice"] }] := by
  decide

/-- A joined connection with a non-empty name that disconnects: every remaining
socket gets the roster update and then the message `<n> has left the chat.` -/
theorem leave_message_for_nonempty_name (s : ServerState) (id : SocketId) (n time : String)
    (h : usernameOf s id = some n) (hn : n ≠ "") :
    (step s (.disconnect id time)).2.filter isChat
        = ((connectedIds s).filter (fun k => decide (k ≠ id))).map (fun k =>
            { target := k,
              event := .chat { sender := some "System",
                               message := n ++ " has left the chat.",
                               timestamp := time, type := "text" } })
    ∧ connectedIds (step s (.disconnect id time)).1
        = (connectedIds s).filter (fun k => decide (k ≠ id)) := by
  have hid := connected_of_usernameOf s id n h
  have hids : connectedIds
      { s with sockets := s.sockets.filter (fun k => decide (k.id ≠ id)),
               onlineUsers := mapDelete s.onlineUsers id }
        = (connectedIds s).filter (fun k => decide (k ≠ id)) := by
    simp only [connectedIds, List.filter_map]
    rfl
  simp only [step, hid, if_true, onDisconnect, h, truthy, hn, ne_eq, not_false_eq_true,
    decide_True, ioEmit_eq_map, hids, List.filter_append, filter_isChat_map, systemMessage,
    Option.getD_some]
  simp [isChat]

/-- A connection that never joined and disconnects: no `chat` event is sent and
the roster is what it was. -/
theorem disconnect_without_join (s : ServerState) (hs : Inv s) (id : SocketId) (time : String)
    (h : usernameOf s id = none) :
    (step s (.disconnect id time)).2.filter isChat = []
    ∧ roster (step s (.disconnect id time)).1 = roster s := by
  by_cases hid : id ∈ connectedIds s
  · have hk : id ∉ registeredIds s := by
      rw [mem_registeredIds s hs]
      simp [h]
    have hdel : mapDelete s.onlineUsers id = s.onlineUsers := by
      simp only [mapDelete, List.filter_eq_self, decide_eq_true_eq]
      intro e he heq
      exact hk (by simpa [registeredIds, mapKeys] using ⟨e.2, by rw [← heq]; exact he⟩)
    simp only [step, hid, if_true, onDisconnect, h, truthy, Bool.false_eq_true, if_false,
      List.append_nil, ioEmit_eq_map, filter_isChat_map, roster, hdel]
    simp [isChat]
  · simp [step, hid]

/-! ### Events of a socket that has not joined -/

/-- C10 as stated fails: a connected socket that has not joined sends a chat
event; History grows and both sockets are sent a `chat` event. -/
theorem chat_before_join_is_processed :
    2 ∈ connectedIds (run init aliceThenSecond)
    ∧ usernameOf (run init aliceThenSecond) 2 = none
    ∧ (step (run init aliceThenSecond) (.chat 2 "x" "10:02")).1.chatHistory
        ≠ (run init aliceThenSecond).chatHistory
    ∧ (step (run init aliceThenSecond) (.chat 2 "x" "10:02")).2
        = [{ target := 1,
             event := .chat { sender := none, message := "x", timestamp := "10:02",
                              type := "text" } },
           { target := 2,
             event := .chat { sender := none, message := "x", timestamp := "10:02",
                              type := "text" } }] := by
  decide

/-- C10, amended: the events of a connected socket that has not joined are
handled like those of a joined one, only without a sender. Typing is relayed to
the other connected sockets and changes nothing. Chat and file-upload append one
message without sender to History and send it as a `chat` event to every
connected socket; the roster stays as it is. Nothing else is emitted, so the
sender gets no error event. -/
theorem events_before_join (s : ServerState) (id : SocketId) (hid : id ∈ connectedIds s)
    (h : usernameOf s id = none) :
    (∀ username,
        step s (.typing id username)
          = (s, ((connectedIds s).filter (fun k => decide (k ≠ id))).map
                  (fun k => { target := k, event := .typing username })))
    ∧ (∀ t time,
        (step s (.chat id t time)).1.chatHistory
            = s.chatHistory ++ [{ sender := none, message := t, timestamp := time,
                                  type := "text" }]
        ∧ (step s (.chat id t time)).2
            = (connectedIds s).map (fun k =>
                { target := k,
                  event := .chat { sender := none, message := t, timestamp := time,
                                   type := "text" } })
        ∧ roster (step s (.chat id t time)).1 = roster s)
    ∧ (∀ (fileData : FileData) time,
        (step s (.fileUpload id fileData time)).1.chatHistory
            = s.chatHistory ++ [{ sender := none, message := fileData.fileName,
                                  timestamp := time, type := fileData.type,
                                  file := some fileData.fileContent,
                                  fileType := some fileData.fileType,
                                  fileName := some fileData.fileName,
                                  fileSize := some fileData.fileSize }]
        ∧ (step s (.fileUpload id fileData time)).2
            = (connectedIds s).map (fun k =>
                { target := k,
                  event := .chat { sender := none, message := fileData.fileName,
                                   timestamp := time, type := fileData.type,
                                   file := some fileData.fileContent,
                                   fileType := some fileData.fileType,
                                   fileName := some fileData.fileName,
                                   fileSize := some fileData.fileSize } })
        ∧ roster (step s (.fileUpload id fileData time)).1 = roster s) := by
  refine ⟨?_, ?_, ?_⟩
  · intro username
    simp [step, hid, onTyping, broadcastEmit_eq_map]
  · intro t time
    simp [step, hid, onChat, chatMessage, h, ioEmit_eq_map, roster]
  · intro fileData time
    simp [step, hid, onFileUpload, fileUploadMessage, h, ioEmit_eq_map, roster]

/-- Scenario check for C10: the second socket, connected but not joined, types;
Alice is told and the state stays as it was. -/
theorem events_before_join_witness :
    2 ∈ connectedIds (run init aliceThenSecond)
    ∧ usernameOf (run init aliceThenSecond) 2 = none
    ∧ step (run init aliceThenSecond) (.typing 2 "bob")
        = (run init aliceThenSecond, [{ target := 1, event := .typing "bob" }]) :=
  ⟨by decide, by decide,
    (events_before_join (run init aliceThenSecond) 2 (by decide) (by decide)).1 "bob"⟩

/-! ### The stored filename -/

theorem allowed_digitChar (d : Nat) (h : d < 10) : allowedChar (Nat.digitChar d) = true := by
  interval_cases d <;> decide

theorem allowed_toDigitsCore (fuel n : Nat) (ds : List Char)
    (hds : ∀ c ∈ ds, allowedChar c = true) :
    ∀ c ∈ Nat.toDigitsCore 10 fuel n ds, allowedChar c = true := by
  induction fuel generalizing n ds with
  | zero => simpa [Nat.toDigitsCore] using hds
  | succ fuel ih =>
    have hcons : ∀ c ∈ Nat.digitChar (n % 10) :: ds, allowedChar c = true := by
      intro c hc
      rcases List.mem_cons.mp hc with rfl | hc
      · exact allowed_digitChar _ (Nat.mod_lt _ (by decide))
      · exact hds c hc
    simp only [Nat.toDigitsCore]
    split
    · exact hcons
    · exact ih _ _ hcons

theorem allowed_repr (n : Nat) : ∀ c ∈ (Nat.repr n).data, allowedChar c = true := by
  simp only [Nat.repr, Nat.toDigits, List.asString]
  exact allowed_toDigitsCore _ _ _ (by simp)

theorem allowed_sanitizeChar (c : Char) : ∀ d ∈ sanitizeChar c, allowedChar d = true := by
  intro d hd
  simp only [sanitizeChar] at hd
  split at hd
  · simp only [List.mem_singleton] at hd
    subst hd
    assumption
  · rw [List.eq_of_mem_replicate hd]
    decide

theorem storageFilename_data (originalname : String) (now : Nat) :
    (storageFilename originalname now).data
      = (Nat.repr now).data ++ '-' :: originalname.data.flatMap sanitizeChar := by
  simp [storageFilename, safeFilename, String.data_append]

theorem allowed_storageFilename (originalname : String) (now : Nat) :
    ∀ c ∈ (storageFilename originalname now).data, allowedChar c = true := by
  intro c hc
  rw [storageFilename_data, List.mem_append, List.mem_cons, List.mem_flatMap] at hc
  rcases hc with hc | rfl | ⟨a, -, hc⟩
  · exact allowed_repr now c hc
  · decide
  · exact allowed_sanitizeChar a c hc

theorem sanitize_bmp (l : List Char) (h : ∀ c ∈ l, c.toNat < 65536) :
    l.flatMap sanitizeChar = l.map (fun c => if allowedChar c then c else '_') := by
  induction l with
  | nil => rfl
  | cons c l ih =>
    have hc : c.toNat < 65536 := h c (List.mem_cons_self _ _)
    have ih' := ih (fun d hd => h d (List.mem_cons_of_mem _ hd))
    by_cases ha : allowedChar c = true
    · simp [List.flatMap_cons, sanitizeChar, ha, ih']
    · simp [List.flatMap_cons, sanitizeChar, ha, ih', utf16Units, hc]

/-- The filename callback, for every name it is handed: the stored filename is
the decimal clock reading, `-`, and the name in which every allowed character is
kept and every other one is replaced by `_` (one per UTF-16 code unit, so
exactly one for each character of the Basic Multilingual Plane). All its
characters are in the allow-list; it contains neither `/` nor the backslash; it
is neither `.` nor `..`. -/
theorem storageFilename_props (originalname : String) (now : Nat) :
    (storageFilename originalname now).data
        = (Nat.repr now).data ++ '-' :: originalname.data.flatMap
            (fun c => if allowedChar c then [c] else List.replicate (utf16Units c) '_')
    ∧ ((∀ c ∈ originalname.data, c.toNat < 65536) →
        (storageFilename originalname now).data
          = (Nat.repr now).data ++ '-' :: originalname.data.map
              (fun c => if allowedChar c then c else '_'))
    ∧ (∀ c ∈ (storageFilename originalname now).data, allowedChar c = true)
    ∧ '/' ∉ (storageFilename originalname now).data
    ∧ '\\' ∉ (storageFilename originalname now).data
    ∧ storageFilename originalname now ≠ "."
    ∧ storageFilename originalname now ≠ ".." := by
  have hall := allowed_storageFilename originalname now
  have hdash : '-' ∈ (storageFilename originalname now).data := by
    rw [storageFilename_data]
    exact List.mem_append_right _ (List.mem_cons_self _ _)
  refine ⟨storageFilename_data originalname now, ?_, hall, ?_, ?_, ?_, ?_⟩
  · intro h
    rw [storageFilename_data, sanitize_bmp _ h]
  · intro h
    exact absurd (hall _ h) (by decide)
  · intro h
    exact absurd (hall _ h) (by decide)
  · intro h
    rw [h] at hdash
    exact absurd hdash (by decide)
  · intro h
    rw [h] at hdash
    exact absurd hdash (by decide)

/-! ### Classification of uploads -/

theorem startsWith_image_not_video (m : String) (h : startsWith m "image/" = true) :
    startsWith m "video/" = false := by
  simp only [startsWith] at h ⊢
  cases hd : m.data with
  | nil => simp [hd, List.isPrefixOf] at h
  | cons c cs =>
    rw [hd] at h
    simp only [List.isPrefixOf, Bool.and_eq_true, beq_iff_eq] at h
    simp [List.isPrefixOf, ← h.1]

theorem messageType_cases (m : String) :
    (startsWith m "image/" = true → messageType m = "image")
    ∧ (startsWith m "video/" = true → messageType m = "video")
    ∧ (startsWith m "image/" = false → startsWith m "video/" = false → messageType m = "file") := by
  refine ⟨?_, ?_, ?_⟩
  · intro h
    simp [messageType, h]
  · intro h
    have h1 : startsWith m "image/" = false := by
      by_contra hc
      have := startsWith_image_not_video m (by simpa using hc)
      rw [h] at this
      exact absurd this (by simp)
    simp [messageType, h, h1]
  · intro h1 h2
    simp [messageType, h1, h2]

theorem messageType_eq_video_iff (m : String) :
    messageType m = "video" ↔ startsWith m "video/" = true := by
  constructor
  · intro h
    by_contra hv
    by_cases hi : startsWith m "image/" = true
    · simp [messageType, hi] at h
    · simp [messageType, hi, hv] at h
  · exact (messageType_cases m).2.1

theorem processFile_not_video (s : ServerState) (f : UploadedFile) (env : UploadEnv)
    (h : messageType f.mimetype ≠ "video") :
    processFile s f env
      = { finalFileUrl := "/uploads/" ++ f.filename, finalFileSize := f.size,
          finalFileType := f.mimetype, uploadsDir := s.uploadsDir,
          compressedVideosDir := s.compressedVideosDir } := by
  simp [processFile, h]

/-- C6: an upload that carries a file is answered with status 200 and adds one
message, sent to every connected socket, whose type is `image` for a mime type
starting with `image/`, `video` for one starting with `video/` and `file`
otherwise. When the type is not `video`, the message refers to `/uploads/`
followed by the stored filename, which is not under `/compressed_videos/`,
carries the declared mime type and the uploaded size, and the `fileUrl` of the
response is the `file` of the message. -/
theorem upload_classified (s : ServerState) (f : IncomingFile) (username : Option String)
    (stamp : Nat) (env : UploadEnv) :
    ∃ m : Message,
      (step s (.upload (some f) username stamp env)).1.chatHistory = s.chatHistory ++ [m]
      ∧ (step s (.upload (some f) username stamp env)).2
          = (connectedIds s).map (fun k => { target := k, event := .chat m })
      ∧ (handleUpload s (some f) username stamp env).2.2.status = 200
      ∧ (startsWith f.mimetype "image/" = true → m.type = "image")
      ∧ (startsWith f.mimetype "video/" = true → m.type = "video")
      ∧ (startsWith f.mimetype "image/" = false → startsWith f.mimetype "video/" = false →
          m.type = "file")
      ∧ (m.type ≠ "video" →
          m.file = some ("/uploads/" ++ storageFilename f.originalname stamp)
          ∧ startsWith ("/uploads/" ++ storageFilename f.originalname stamp)
              "/compressed_videos/" = false
          ∧ m.fileType = some f.mimetype
          ∧ m.fileSize = some f.size
          ∧ (handleUpload s (some f) username stamp env).2.2.fileUrl = m.file) := by
  refine ⟨uploadMessage
      { originalname := f.originalname, mimetype := f.mimetype, size := f.size,
        filename := storageFilename f.originalname stamp } username env.time
      (processFile (multerSingle s (some f) stamp).1
        { originalname := f.originalname, mimetype := f.mimetype, size := f.size,
          filename := storageFilename f.originalname stamp } env),
    ?_, ?_, ?_, ?_, ?_, ?_, ?_⟩
  · simp [step, handleUpload, multerSingle, postUpload]
  · simp [step, handleUpload, multerSingle, postUpload, ioEmit_eq_map, connectedIds]
  · simp [handleUpload, multerSingle, postUpload]
  · simpa [uploadMessage, multerSingle] using (messageType_cases f.mimetype).1
  · simpa [uploadMessage, multerSingle] using (messageType_cases f.mimetype).2.1
  · simpa [uploadMessage, multerSingle] using (messageType_cases f.mimetype).2.2
  · intro h
    have h' : messageType f.mimetype ≠ "video" := by
      simpa [uploadMessage, multerSingle] using h
    have hp : ∀ t : ServerState,
        processFile t
            { originalname := f.originalname, mimetype := f.mimetype, size := f.size,
              filename := storageFilename f.originalname stamp } env
          = { finalFileUrl := "/uploads/" ++ storageFilename f.originalname stamp,
              finalFileSize := f.size, finalFileType := f.mimetype,
              uploadsDir := t.uploadsDir, compressedVideosDir := t.compressedVideosDir } :=
      fun t => processFile_not_video t _ env h'
    refine ⟨?_, ?_, ?_, ?_, ?_⟩
    · simp [uploadMessage, hp]
    · simp [startsWith, String.data_append, List.isPrefixOf]
    · simp [uploadMessage, hp]
    · simp [uploadMessage, hp]
    · simp [handleUpload, postUpload, uploadMessage, multerSingle, hp]

/-- Scenario check for C6 (scenario D): `notes.txt` becomes a `file` message
under `/uploads/`. -/
theorem upload_classified_witness :
    (step init (.upload (some notesUpload) none 1700000000000 toolFails)).1.chatHistory
        = [{ sender := some "Unknown", message := "notes.txt", timestamp := "10:10",
             type := "file", file := some "/uploads/1700000000000-notes.txt",
             fileType := some "text/plain", fileName := some "notes.txt",
             fileSize := some 12 }]
    ∧ ∃ m : Message,
        (step init (.upload (some notesUpload) none 1700000000000 toolFails)).1.chatHistory
          = init.chatHistory ++ [m] :=
  ⟨by decide,
    (upload_classified init notesUpload none 1700000000000 toolFails).imp
      (fun _ h => h.1)⟩

/-! ### The transcode fallback -/

theorem probe_fluentFfmpeg : probe fluentFfmpeg = none := rfl

/-- For any `ffmpeg` module: when the `try` block is left before the transcoder
reports `end` (its first statement throws, or the transcoder reports `error`),
the route's variables describe the original and both directories are as they
were. -/
theorem processVideo_before_end (ffmpeg : FfmpegModule) (s : ServerState) (f : UploadedFile)
    (env : UploadEnv) (name : String)
    (h : probe ffmpeg = none ∨ env.transcode = .ffmpegError) :
    processVideo ffmpeg s f env name
      = { finalFileUrl := "/uploads/" ++ f.filename, finalFileSize := f.size,
          finalFileType := f.mimetype, uploadsDir := s.uploadsDir,
          compressedVideosDir := s.compressedVideosDir } := by
  rcases h with h | h
  · simp [processVideo, h]
  · cases hp : probe ffmpeg <;> simp [processVideo, hp, h]

theorem mem_uploadsDir_multerSingle (s : ServerState) (f : IncomingFile) (stamp : Nat) :
    storageFilename f.originalname stamp ∈ (multerSingle s (some f) stamp).1.uploadsDir := by
  simp only [multerSingle]
  split
  · assumption
  · simp

/-- C5: every accepted video upload has its transcode attempt end in the `catch`
block, because the first statement of the `try` block throws with the
`fluent-ffmpeg` module, whatever the transcoder and `fs.statSync` would have
done. The request is answered 200, the one message appended and sent to every
connected socket has type `video`, refers to `/uploads/` followed by the stored
original filename, carries the declared mime type and the original size, and
the original is still in the uploads directory. -/
theorem video_upload_falls_back (s : ServerState) (f : IncomingFile)
    (username : Option String) (stamp : Nat) (env : UploadEnv)
    (hv : startsWith f.mimetype "video/" = true) :
    probe fluentFfmpeg = none
    ∧ (handleUpload s (some f) username stamp env).2.2
        = { status := 200, message := "File uploaded and processed successfully",
            fileUrl := some ("/uploads/" ++ storageFilename f.originalname stamp) }
    ∧ (step s (.upload (some f) username stamp env)).1.chatHistory
        = s.chatHistory ++
          [{ sender := some (if truthy username then username.getD "" else "Unknown"),
             message := f.originalname, timestamp := env.time, type := "video",
             file := some ("/uploads/" ++ storageFilename f.originalname stamp),
             fileType := some f.mimetype, fileName := some f.originalname,
             fileSize := some f.size }]
    ∧ (step s (.upload (some f) username stamp env)).2
        = (connectedIds s).map (fun k =>
            { target := k,
              event := .chat
                { sender := some (if truthy username then username.getD "" else "Unknown"),
                  message := f.originalname, timestamp := env.time, type := "video",
                  file := some ("/uploads/" ++ storageFilename f.originalname stamp),
                  fileType := some f.mimetype, fileName := some f.originalname,
                  fileSize := some f.size } })
    ∧ storageFilename f.originalname stamp
        ∈ (step s (.upload (some f) username stamp env)).1.uploadsDir := by
  have hm : messageType f.mimetype = "video" := (messageType_cases f.mimetype).2.1 hv
  have hp : ∀ (t : ServerState) (name : String),
      processVideo fluentFfmpeg t
          { originalname := f.originalname, mimetype := f.mimetype, size := f.size,
            filename := storageFilename f.originalname stamp } env name
        = { finalFileUrl := "/uploads/" ++ storageFilename f.originalname stamp,
            finalFileSize := f.size, finalFileType := f.mimetype,
            uploadsDir := t.uploadsDir, compressedVideosDir := t.compressedVideosDir } :=
    fun t name => processVideo_before_end fluentFfmpeg t _ env name (Or.inl rfl)
  have hmem := mem_uploadsDir_multerSingle s f stamp
  refine ⟨rfl, ?_, ?_, ?_, ?_⟩
  · simp [handleUpload, multerSingle, postUpload, processFile, hm, hp]
  · simp [step, handleUpload, multerSingle, postUpload, processFile, hm, hp, uploadMessage]
  · simp [step, handleUpload, multerSingle, postUpload, processFile, hm, hp, uploadMessage,
      ioEmit_eq_map, connectedIds]
  · simpa [step, handleUpload, multerSingle, postUpload, processFile, hm, hp] using hmem

/-- Scenario check for C5 (scenario E): `clip.mov` is answered 200 with the
original under `/uploads/`, its declared type and its size, and the original is
on disk, also in the environment where `fs.statSync` would throw. -/
theorem video_upload_falls_back_witness :
    startsWith clipUpload.mimetype "video/" = true
    ∧ (handleUpload init (some clipUpload) (some "alice") 1700000000000 statThrows).2.2
        = { status := 200, message := "File uploaded and processed successfully",
            fileUrl := some "/uploads/1700000000000-clip.mov" }
    ∧ (step init (.upload (some clipUpload) (some "alice") 1700000000000 statThrows)).1.chatHistory
        = [{ sender := some "alice", message := "clip.mov", timestamp := "10:10",
             type := "video", file := some "/uploads/1700000000000-clip.mov",
             fileType := some "video/quicktime", fileName := some "clip.mov",
             fileSize := some 5000 }]
    ∧ storageFilename clipUpload.originalname 1700000000000
        ∈ (step init
            (.upload (some clipUpload) (some "alice") 1700000000000 statThrows)).1.uploadsDir :=
  ⟨by decide, by decide, by decide,
    (video_upload_falls_back init clipUpload (some "alice") 1700000000000 statThrows
      (by decide)).2.2.2.2⟩

/-! ### Inline uploads -/

/-- C11 as stated fails: Alice, joined, sends an inline payload whose `type`
field says `video`; the message appended to History has type `video`, not
`image`. -/
theorem inline_upload_type_not_forced :
    usernameOf (run init aliceAndBob) 1 = some "alice"
    ∧ (step (run init aliceAndBob) (.fileUpload 1 mislabelled "10:03")).1.chatHistory
        = (run init aliceAndBob).chatHistory ++
          [{ sender := some "alice", message := "cat.png", timestamp := "10:03",
             type := "video", file := some "data:image/png;base64,AAAA",
             fileType := some "image/png", fileName := some "cat.png",
             fileSize := some 3 }]
    ∧ ∀ m ∈ (step (run init aliceAndBob) (.fileUpload 1 mislabelled "10:03")).1.chatHistory,
        m.type ≠ "image" := by
  decide

/-- C11, amended: a file-upload event from a joined connection appends to History
exactly one message and sends it as one `chat` event to every connected socket;
its type is the `type` field of the payload (hence `image` exactly when the
payload says so), its sender is the name stored at join, and `fileContent`,
`fileType`, `fileName` and `fileSize` are those of the payload, unchanged. -/
theorem inline_upload_wrapped (s : ServerState) (id : SocketId) (n time : String)
    (fileData : FileData) (h : usernameOf s id = some n) :
    (step s (.fileUpload id fileData time)).1.chatHistory
        = s.chatHistory ++
          [{ sender := some n, message := fileData.fileName, timestamp := time,
             type := fileData.type, file := some fileData.fileContent,
             fileType := some fileData.fileType, fileName := some fileData.fileName,
             fileSize := some fileData.fileSize }]
    ∧ (step s (.fileUpload id fileData time)).2
        = (connectedIds s).map (fun k =>
            { target := k,
              event := .chat
                { sender := some n, message := fileData.fileName, timestamp := time,
                  type := fileData.type, file := some fileData.fileContent,
                  fileType := some fileData.fileType, fileName := some fileData.fileName,
                  fileSize := some fileData.fileSize } })
    ∧ (∀ m ∈ (appended s (.fileUpload id fileData time)).toList,
        (m.type = "image" ↔ fileData.type = "image")) := by
  have hid := connected_of_usernameOf s id n h
  refine ⟨?_, ?_, ?_⟩
  · simp [step, hid, onFileUpload, fileUploadMessage, h]
  · simp [step, hid, onFileUpload, fileUploadMessage, h, ioEmit_eq_map]
  · intro m hm
    simp only [appended, hid, if_true, Option.toList, List.mem_singleton] at hm
    subst hm
    simp [fileUploadMessage]

/-- Scenario check for C11: the payload of the bundled client, whose `type` is
`image`, gives an `image` message that reaches Alice and Bob. -/
theorem inline_upload_wrapped_witness :
    usernameOf (run init aliceAndBob) 1 = some "alice"
    ∧ (step (run init aliceAndBob)
          (.fileUpload 1 { mislabelled with type := "image" } "10:03")).2
        = [{ target := 1,
             event := .chat
               { sender := some "alice", message := "cat.png", timestamp := "10:03",
                 type := "image", file := some "data:image/png;base64,AAAA",
                 fileType := some "image/png", fileName := some "cat.png",
                 fileSize := some 3 } },
           { target := 2,
             event := .chat
               { sender := some "alice", message := "cat.png", timestamp := "10:03",
                 type := "image", file := some "data:image/png;base64,AAAA",
                 fileType := some "image/png", fileName := some "cat.png",
                 fileSize := some 3 } }] :=
  ⟨by decide,
    (inline_upload_wrapped (run init aliceAndBob) 1 "alice" "10:03"
      { mislabelled with type := "image" } (by decide)).2.1⟩

/-! ### Announcements and History -/

theorem appended_none_of_not_pushes (s : ServerState) (e : Event)
    (h : pushesMessage e = false) : appended s e = none := by
  cases e <;> simp [pushesMessage] at h <;> simp [appended]

theorem appendedSoFar_nil_of_not_pushes (s : ServerState) (evs : List Event)
    (h : ∀ e ∈ evs, pushesMessage e = false) : appendedSoFar s evs = [] := by
  induction evs generalizing s with
  | nil => rfl
  | cons e es ih =>
    have he := appended_none_of_not_pushes s e (h e (List.mem_cons_self _ _))
    simp [appendedSoFar, he, ih _ (fun x hx => h x (List.mem_cons_of_mem _ hx))]

theorem replay_of_join (s : ServerState) (id : SocketId) (username time : String)
    (h : id ∈ connectedIds s) :
    (step s (.join id username time)).2.filter isChatHistory
      = [{ target := id, event := .chatHistory s.chatHistory }] := by
  simp only [step, h, if_true, onJoin, List.filter_append]
  rw [filter_isChatHistory_ioEmit _ _ (by simp [isChatHistory]),
    filter_isChatHistory_broadcastEmit _ _ _ (by simp [isChatHistory])]
  simp [socketEmit, isChatHistory]

/-- C12 as stated fails: the announcements of Bob's join and of Bob's leave were
sent to Alice, yet neither is in History, and the socket that joins afterwards
is replayed Alice's "hi" alone. -/
theorem announcements_not_replayed :
    ({ target := 1,
       event := .chat (systemMessage "bob has joined the chat." "10:02") } : Emit)
        ∈ (step (run init aliceThenSecond) (.join 2 "bob" "10:02")).2
    ∧ ({ target := 1,
         event := .chat (systemMessage "bob has left the chat." "10:03") } : Emit)
        ∈ (step (run init aliceAndBob) (.disconnect 2 "10:03")).2
    ∧ systemMessage "bob has joined the chat." "10:02" ∉ (run init bobCameAndWent).chatHistory
    ∧ systemMessage "bob has left the chat." "10:03" ∉ (run init bobCameAndWent).chatHistory
    ∧ (step (run init bobCameAndWent) (.join 3 "carol" "10:04")).2.filter isChatHistory
        = [{ target := 3,
             event := .chatHistory
               [{ sender := some "alice", message := "hi", timestamp := "10:01",
                  type := "text" }] }] := by
  decide

/-- C12, amended: the announcements of joins and leaves are broadcast but not
appended to History. A join and a disconnect leave History as it is, in every
state; an event other than chat, file-upload and upload adds nothing to it; so
the `chat-history` replayed to a later join holds the chat and media messages
only, in arrival order, and is empty after a run that had no such event. -/
theorem announcements_not_appended (evs : List Event) (id : SocketId)
    (username time : String) (h : id ∈ connectedIds (run init evs)) :
    (∀ (s : ServerState) (id0 : SocketId) (u t : String),
        (step s (.join id0 u t)).1.chatHistory = s.chatHistory)
    ∧ (∀ (s : ServerState) (id0 : SocketId) (t : String),
        (step s (.disconnect id0 t)).1.chatHistory = s.chatHistory)
    ∧ (∀ (s : ServerState) (e : Event), pushesMessage e = false →
        (step s e).1.chatHistory = s.chatHistory)
    ∧ (step (run init evs) (.join id username time)).2.filter isChatHistory
        = [{ target := id, event := .chatHistory (appendedSoFar init evs) }]
    ∧ ((∀ e ∈ evs, pushesMessage e = false) →
        (step (run init evs) (.join id username time)).2.filter isChatHistory
          = [{ target := id, event := .chatHistory [] }]) := by
  have hstep : ∀ (s : ServerState) (e : Event), pushesMessage e = false →
      (step s e).1.chatHistory = s.chatHistory := by
    intro s e he
    rw [step_chatHistory, appended_none_of_not_pushes s e he]
    simp
  have hrun : (run init evs).chatHistory = appendedSoFar init evs := by
    rw [run_chatHistory]
    simp [init]
  refine ⟨fun s id0 u t => hstep s _ rfl, fun s id0 t => hstep s _ rfl, hstep, ?_, ?_⟩
  · rw [replay_of_join _ _ _ _ h, hrun]
  · intro hall
    rw [replay_of_join _ _ _ _ h, hrun, appendedSoFar_nil_of_not_pushes init evs hall]

/-- Scenario check for C12: after Bob came and went, the third socket's replay is
what the chat events appended, nothing more. -/
theorem announcements_not_appended_witness :
    3 ∈ connectedIds (run init bobCameAndWent)
    ∧ (step (run init bobCameAndWent) (.join 3 "carol" "10:04")).2.filter isChatHistory
        = [{ target := 3, event := .chatHistory (appendedSoFar init bobCameAndWent) }]
    ∧ appendedSoFar init bobCameAndWent
        = [{ sender := some "alice", message := "hi", timestamp := "10:01", type := "text" }] :=
  ⟨by decide,
    (announcements_not_appended bobCameAndWent 3 "carol" "10:04" (by decide)).2.2.2.1,
    by decide⟩

/-! ### Names of uploaded files -/

theorem busboyBasename_data (filename : String) :
    ∀ c ∈ (busboyBasename filename).data, c ≠ '/' ∧ c ≠ '\\' := by
  intro c hc
  simp only [busboyBasename] at hc
  split at hc
  · simp at hc
  · simp only [List.mem_reverse] at hc
    have := List.mem_takeWhile_imp hc
    simpa using this

theorem busboyBasename_ne_dots (filename : String) :
    busboyBasename filename ≠ "." ∧ busboyBasename filename ≠ ".." := by
  simp only [busboyBasename]
  split
  · exact ⟨by decide, by decide⟩
  · rename_i h
    exact ⟨fun h1 => h (Or.inl h1), fun h2 => h (Or.inr h2)⟩

theorem processFile_uploadsDir (s : ServerState) (f : UploadedFile) (env : UploadEnv) :
    (processFile s f env).uploadsDir = s.uploadsDir := by
  simp only [processFile]
  split
  · rw [processVideo_before_end fluentFfmpeg s f env _ (Or.inl rfl)]
  · rfl

/-- C7 as stated fails for names a client can send. The part named `..` is not
stored at all: multer attaches no file and the route answers 400. The part named
`../../etc/pass wd.txt` is stored under `1700000000000-pass_wd.txt`, the
sanitised base name, and not under the timestamp followed by the whole name with
its separators replaced, `1700000000000-.._.._etc_pass_wd.txt`. -/
theorem client_name_cut_or_dropped :
    receivePart init dotsPart (some "alice") 1700000000000 toolFails
        = (init, [], { status := 400, message := "No file uploaded.", fileUrl := none })
    ∧ (receivePart init traversalPart (some "alice") 1700000000000 toolFails).1.uploadsDir
        = ["1700000000000-pass_wd.txt"]
    ∧ storageFilename traversalPart.filename 1700000000000
        = "1700000000000-.._.._etc_pass_wd.txt"
    ∧ storageFilename traversalPart.filename 1700000000000
        ∉ (receivePart init traversalPart (some "alice") 1700000000000 toolFails).1.uploadsDir := by
  decide

/-- C7, amended. The filename callback, for every name `originalname` it is
handed and every clock reading: the stored filename is the decimal clock
reading, `-`, and the name with every character outside the allow-list replaced
by `_`; all its characters are in the allow-list, it has no path separator, it
is neither `.` nor `..`, and the storage stage stores the file under it whatever
the name. What the callback is handed, for every file part: the base name of the
part's `filename` parameter, which is non-empty, has no separator and is neither
`.` nor `..`; a part whose base name is empty (the parameter is empty, ends with
a separator, or ends with the segment `.` or `..`) is not stored and the request
is answered 400 with the state unchanged; every other part is stored under the
callback's name for its base name and the request is answered 200. -/
theorem upload_name_sanitised (originalname : String) (now : Nat) (part : FilePart) :
    (storageFilename originalname now).data
        = (Nat.repr now).data ++ '-' :: originalname.data.flatMap
            (fun c => if allowedChar c then [c] else List.replicate (utf16Units c) '_')
    ∧ ((∀ c ∈ originalname.data, c.toNat < 65536) →
        (storageFilename originalname now).data
          = (Nat.repr now).data ++ '-' :: originalname.data.map
              (fun c => if allowedChar c then c else '_'))
    ∧ (∀ c ∈ (storageFilename originalname now).data, allowedChar c = true)
    ∧ '/' ∉ (storageFilename originalname now).data
    ∧ '\\' ∉ (storageFilename originalname now).data
    ∧ storageFilename originalname now ≠ "."
    ∧ storageFilename originalname now ≠ ".."
    ∧ (∀ (s : ServerState) (mimetype : String) (size : Nat),
        (multerSingle s
            (some { originalname := originalname, mimetype := mimetype, size := size }) now).2
          = some { originalname := originalname, mimetype := mimetype, size := size,
                   filename := storageFilename originalname now })
    ∧ (∀ f, multerFile part = some f →
        f.originalname = busboyBasename part.filename
        ∧ f.originalname ≠ ""
        ∧ '/' ∉ f.originalname.data
        ∧ '\\' ∉ f.originalname.data
        ∧ f.originalname ≠ "."
        ∧ f.originalname ≠ "..")
    ∧ (multerFile part = none ↔ busboyBasename part.filename = "")
    ∧ (busboyBasename part.filename = "" →
        ∀ (s : ServerState) (username : Option String) (stamp : Nat) (env : UploadEnv),
          receivePart s part username stamp env
            = (s, [], { status := 400, message := "No file uploaded.", fileUrl := none }))
    ∧ (busboyBasename part.filename ≠ "" →
        ∀ (s : ServerState) (username : Option String) (stamp : Nat) (env : UploadEnv),
          (receivePart s part username stamp env).2.2.status = 200
          ∧ storageFilename (busboyBasename part.filename) stamp
              ∈ (receivePart s part username stamp env).1.uploadsDir) := by
  obtain ⟨h1, h2, h3, h4, h5, h6, h7⟩ := storageFilename_props originalname now
  refine ⟨h1, h2, h3, h4, h5, h6, h7, fun s mimetype size => rfl, ?_, ?_, ?_, ?_⟩
  · intro f hf
    by_cases hb : busboyBasename part.filename = ""
    · simp [multerFile, hb] at hf
    · simp only [multerFile, hb, if_false, Option.some.injEq] at hf
      subst hf
      refine ⟨rfl, hb, ?_, ?_, (busboyBasename_ne_dots _).1, (busboyBasename_ne_dots _).2⟩
      · exact fun h => (busboyBasename_data _ _ h).1 rfl
      · exact fun h => (busboyBasename_data _ _ h).2 rfl
  · by_cases hb : busboyBasename part.filename = "" <;> simp [multerFile, hb]
  · intro hb s username stamp env
    simp [receivePart, multerFile, hb, handleUpload, multerSingle, postUpload]
  · intro hb s username stamp env
    have hmem := mem_uploadsDir_multerSingle s
      { originalname := busboyBasename part.filename, mimetype := part.mimeType,
        size := part.size } stamp
    simp only [receivePart, multerFile, hb, if_false, handleUpload, postUpload,
      processFile_uploadsDir]
    exact ⟨rfl, hmem⟩

/-- Scenario check for C7: the traversal attempt is stored under a harmless
name made from its base name. -/
theorem upload_name_sanitised_witness :
    multerFile traversalPart
        = some { originalname := "pass wd.txt", mimetype := "text/plain", size := 12 }
    ∧ storageFilename "pass wd.txt" 1700000000000 = "1700000000000-pass_wd.txt"
    ∧ '/' ∉ (storageFilename "pass wd.txt" 1700000000000).data :=
  ⟨by decide, by decide,
    (upload_name_sanitised "pass wd.txt" 1700000000000 traversalPart).2.2.2.1⟩

end Chattify
